import Mathlib

/-!
# Verification of the OLAPBench query-plan normalization subsystem

Shallow embedding of the cross-engine query-plan parsers of OLAPBench
(`src/queryplan/queryoperator.py`, `src/queryplan/parsers/clickhouseparser.py`,
`src/queryplan/parsers/sqlserverparser.py`) together with proofs about the
properties stated in the specification.

Raw JSON payloads are modelled by an inductive `Json` tree, SQL Server XML
payloads by `XmlElem` trees, and SQL Server flat statistics rows by lists of
`RVal` cell values.  Python's dynamic behaviours that the parsers rely on
(truthiness, `or`-chains, `int()` coercion, `str()` rendering, `len()` and
iteration over heterogeneous values, exceptions) are modelled explicitly;
code paths on which the Python code raises an exception are modelled with
`Except String`.
-/

set_option maxHeartbeats 1000000
set_option linter.unnecessarySeqFocus false

/-! ## String helpers (Python `str.startswith`, `in`, `int(...)`, `float(...)`) -/

/-- Python `s.startswith(p)`. -/
def strStartsWith (s p : String) : Bool :=
  p.data.isPrefixOf s.data

/-- Infix test on character lists: `pat` occurs contiguously in `l`. -/
def listContainsSub (pat : List Char) : List Char → Bool
  | [] => pat.isEmpty
  | c :: rest => pat.isPrefixOf (c :: rest) || listContainsSub pat rest

/-- Python `p in s` (substring containment). -/
def strContains (s p : String) : Bool :=
  listContainsSub p.data s.data

/-- Python `s.lower()` (ASCII case folding; implemented over the character
list so that it evaluates by kernel reduction). -/
def strToLower (s : String) : String :=
  String.mk (s.data.map Char.toLower)

/-- Python `s.upper()`. -/
def strToUpper (s : String) : String :=
  String.mk (s.data.map Char.toUpper)

/-- Python `s.split(c)` for a single-character separator, over character
lists: the empty string yields one empty part. -/
def splitOnCharList (c : Char) : List Char → List (List Char)
  | [] => [[]]
  | x :: rest =>
    let r := splitOnCharList c rest
    if x = c then [] :: r
    else
      match r with
      | h :: t => (x :: h) :: t
      | [] => [[x]]

/-- Python `s.split(".")`. -/
def strSplitDot (s : String) : List String :=
  (splitOnCharList '.' s.data).map String.mk

/-- Python `sep.join(parts)`. -/
def strJoin (sep : String) : List String → String
  | [] => ""
  | [x] => x
  | x :: rest => x ++ sep ++ strJoin sep rest

/-- Digits of a non-empty all-digit character list, as a natural number. -/
def digitsToNat : List Char → Option Nat
  | [] => none
  | cs =>
    if cs.all Char.isDigit then
      some (cs.foldl (fun acc c => acc * 10 + (c.toNat - '0'.toNat)) 0)
    else none

/-- Python `int(s)` on a string: optional surrounding whitespace, optional
sign, then decimal digits; anything else raises (`none`). -/
def pyParseInt (s : String) : Option Int :=
  let cs := (s.data.dropWhile Char.isWhitespace).reverse.dropWhile Char.isWhitespace |>.reverse
  match cs with
  | '-' :: rest => (digitsToNat rest).map (fun n => -(n : Int))
  | '+' :: rest => (digitsToNat rest).map (fun n => (n : Int))
  | rest => (digitsToNat rest).map (fun n => (n : Int))

/-- Python `int(float(s))`: parse a decimal literal (optional sign, digits
with an optional fractional part) and truncate toward zero.  Exponent
notation and special values are not produced by the supported engines and
are treated as a failed coercion. -/
def pyParseFloatTrunc (s : String) : Option Int :=
  let cs := (s.data.dropWhile Char.isWhitespace).reverse.dropWhile Char.isWhitespace |>.reverse
  let core : List Char → Option Nat := fun body =>
    let intPart := body.takeWhile Char.isDigit
    let rest := body.drop intPart.length
    match rest with
    | [] => digitsToNat intPart
    | '.' :: frac =>
      if frac.all Char.isDigit ∧ (intPart ≠ [] ∨ frac ≠ []) then
        if intPart = [] then some 0 else digitsToNat intPart
      else none
    | _ => none
  match cs with
  | '-' :: rest => (core rest).map (fun n => -(n : Int))
  | '+' :: rest => (core rest).map (fun n => (n : Int))
  | rest => (core rest).map (fun n => (n : Int))

/-! ## Raw JSON payloads -/

/-- Raw JSON values handed to the parser (the payload of the `EXPLAIN`
command, already deserialized).  Numbers are modelled as integers: the
payloads relevant to the parsers carry integral statistics, and string
encoded numbers go through the explicit coercions above. -/
inductive Json where
  | null
  | bool (b : Bool)
  | num (n : Int)
  | str (s : String)
  | arr (elems : List Json)
  | obj (fields : List (String × Json))

/-- `v is None` / `v is not None` tests. -/
def Json.isNull : Json → Bool
  | .null => true
  | _ => false

/-- Python `v == s` for a string literal `s`: true only for equal strings. -/
def Json.isStrEq (j : Json) (s : String) : Bool :=
  match j with
  | .str t => t = s
  | _ => false

/-- Python truthiness of a JSON value. -/
def pyTruthy : Json → Bool
  | .null => false
  | .bool b => b
  | .num n => n ≠ 0
  | .str s => s ≠ ""
  | .arr xs => !xs.isEmpty
  | .obj fs => !fs.isEmpty

/-- Python `a or b`. -/
def pyOr (a b : Json) : Json :=
  if pyTruthy a then a else b

/-- `d.get(k)` on a dict; non-dict values have no `get` and are handled by
`pyGet` below.  Missing keys yield `null` (Python `None`). -/
def jget (j : Json) (k : String) : Json :=
  match j with
  | .obj fs =>
    match fs.find? (fun f => f.1 = k) with
    | some f => f.2
    | none => .null
  | _ => .null

/-- `d.get(k, default)`: the stored value when the key is present (even when
that value is `None`), otherwise the default. -/
def jgetD (j : Json) (k : String) (dflt : Json) : Json :=
  match j with
  | .obj fs =>
    match fs.find? (fun f => f.1 = k) with
    | some f => f.2
    | none => dflt
  | _ => dflt

/-- `k in d` for a dict. -/
def jhas (j : Json) (k : String) : Bool :=
  match j with
  | .obj fs => fs.any (fun f => f.1 = k)
  | _ => false

/-- `value.get(k)` where the receiver may not be a dict: Python raises
`AttributeError` in that case. -/
def pyGet (j : Json) (k : String) : Except String Json :=
  match j with
  | .obj _ => .ok (jget j k)
  | _ => .error "AttributeError: get"

/-- Python `repr` of a JSON value (used only through `str(...)` on non-string
values, which never happens for well-formed plans). -/
def pyRepr : Json → String
  | .null => "None"
  | .bool b => if b then "True" else "False"
  | .num n => toString n
  | .str s => "'" ++ s ++ "'"
  | .arr xs => "[" ++ strJoin ", " (xs.attach.map (fun x => pyRepr x.1)) ++ "]"
  | .obj fs => "\x7b" ++ strJoin ", " (fs.attach.map (fun f => "'" ++ f.1.1 ++ "': " ++ pyRepr f.1.2)) ++ "\x7d"
decreasing_by
  all_goals simp_wf
  · have h := List.sizeOf_lt_of_mem x.2
    omega
  · have h1 := List.sizeOf_lt_of_mem f.2
    have h2 : sizeOf f.1.2 < sizeOf f.1 := by
      cases f.1 with
      | mk a b => simp
    omega

/-- Python `str(v)`: identity on strings, `repr`-style otherwise. -/
def pyStr : Json → String
  | .str s => s
  | j => pyRepr j

/-- Python `int(v)` on a JSON value: integers pass through, booleans map to
0/1, strings are parsed strictly, everything else raises (`none`). -/
def pyIntJ : Json → Option Int
  | .num n => some n
  | .bool b => some (if b then 1 else 0)
  | .str s => pyParseInt s
  | _ => none

/-- `len(v)` for the values the parser may receive as a children collection:
lists, dicts and strings have a length, other values raise `TypeError`. -/
def pyLen : Json → Except String Nat
  | .arr xs => .ok xs.length
  | .obj fs => .ok fs.length
  | .str s => .ok s.data.length
  | _ => .error "TypeError: len"

/-- Iterating a value (`for child in children_nodes`): lists yield their
elements, dicts their keys, strings their characters; other values raise. -/
def pyIterL : Json → Except String (List Json)
  | .arr xs => .ok xs
  | .obj fs => .ok (fs.map (fun f => Json.str f.1))
  | .str s => .ok (s.data.map (fun c => Json.str (String.mk [c])))
  | _ => .error "TypeError: iter"

/-- `children_nodes[0]`: list indexing, string indexing; dicts raise
`KeyError` (JSON keys are strings, so key `0` is never present) and other
values raise `TypeError`. -/
def pyIndex0 : Json → Except String Json
  | .arr (x :: _) => .ok x
  | .arr [] => .error "IndexError"
  | .str s =>
    match s.data with
    | c :: _ => .ok (Json.str (String.mk [c]))
    | [] => .error "IndexError"
  | _ => .error "TypeError: index"

/-- Python `s.strip()`. -/
def pyStrip (s : String) : String :=
  String.mk ((s.data.dropWhile Char.isWhitespace).reverse.dropWhile Char.isWhitespace |>.reverse)

/-- Python `s.removeprefix(p)`. -/
def removePfxStr (s p : String) : String :=
  if strStartsWith s p then String.mk (s.data.drop p.data.length) else s

/-! ## Operator taxonomy (`src/queryplan/queryoperator.py`) -/

/-- `DBMSType` enumeration (only the two engines whose parsers are under
verification are exercised here). -/
inductive DBMSType where
  | Umbra | Postgres | Hyper | DuckDB | ClickHouse | SQLServer
deriving DecidableEq

/-- `OperatorType` enumeration. -/
inductive OperatorType where
  | Result | TableScan | InlineTable | Temp | PipelineBreakerScan
  | Select | Map | Sort | GroupBy | Join
  | GroupJoin | EarlyProbe | SetOperation | Window
  | Iteration | IterationScan
  | ArrayUnnest | RegexSplit
  | Subquery
  | CustomOperator
deriving DecidableEq

/-- An operator id: the engines either embed an integer id in the raw node,
fall back to the parser's counter (also an integer), or — when `int(...)`
fails on the embedded value — keep the raw value verbatim. -/
inductive OpId where
  | num (n : Int)
  | raw (v : Json)
  | rstr (s : String)

/-- Value of a scan-target descriptor attached by the SQL Server parser:
either the attribute dict of an XML `Object` element or a bare string pulled
out of a textual `Argument` field. -/
inductive ObjVal where
  | attrs (l : List (String × String))
  | sname (s : String)

/-- The per-node payload the SQL Server parser assembles (`plan_info`) and
hands to `fill`.  Only the keys that `fill` reads with `SQLServer` are
recorded; a key that is absent and a key stored with value `None` are
indistinguishable through `dict.get` and collapse to `none`. -/
structure SqlPlanInfo where
  limit : Option Int := none
  join_type : Option String := none
  join_method : Option String := none
  agg_method : Option String := none
  object : Option ObjVal := none

/-- The operator record: a tagged union over the operator kinds, each
variant carrying its `operator_id` and the semantic fields of the Python
class of the same name.  Fields initialised to `None` in `__init__` are
`Json.null` here; `fill` may later store coerced integers, strings, or (on
a failed coercion) the raw value. -/
inductive QueryOperator where
  | result (operator_id : OpId)
  | tableScan (operator_id : OpId) (table_name table_size type : Json)
  | inlineTable (operator_id : OpId) (type : Json)
  | temp (operator_id : OpId)
  | pipelineBreakerScan (operator_id : OpId) (scanned_id : Json)
  | select (operator_id : OpId)
  | map (operator_id : OpId)
  | sort (operator_id : OpId) (limit : Json)
  | groupBy (operator_id : OpId) (method : Json)
  | join (operator_id : OpId) (type method : Json)
  | groupJoin (operator_id : OpId) (type : Json)
  | earlyProbe (operator_id : OpId) (source : Json)
  | setOperation (operator_id : OpId) (type : Json) (active : Bool)
  | window (operator_id : OpId)
  | iteration (operator_id : OpId)
  | iterationScan (operator_id : OpId)
  | arrayUnnest (operator_id : OpId)
  | regexSplit (operator_id : OpId)
  | subquery (operator_id : OpId)
  | custom (name : Json) (operator_id : OpId) (limit : Json)

/-- `operator_type` of an operator record. -/
def QueryOperator.operator_type : QueryOperator → OperatorType
  | .result _ => .Result
  | .tableScan _ _ _ _ => .TableScan
  | .inlineTable _ _ => .InlineTable
  | .temp _ => .Temp
  | .pipelineBreakerScan _ _ => .PipelineBreakerScan
  | .select _ => .Select
  | .map _ => .Map
  | .sort _ _ => .Sort
  | .groupBy _ _ => .GroupBy
  | .join _ _ _ => .Join
  | .groupJoin _ _ => .GroupJoin
  | .earlyProbe _ _ => .EarlyProbe
  | .setOperation _ _ _ => .SetOperation
  | .window _ => .Window
  | .iteration _ => .Iteration
  | .iterationScan _ => .IterationScan
  | .arrayUnnest _ => .ArrayUnnest
  | .regexSplit _ => .RegexSplit
  | .subquery _ => .Subquery
  | .custom _ _ _ => .CustomOperator

/-- `operator_id` of an operator record. -/
def QueryOperator.operator_id : QueryOperator → OpId
  | .result i => i
  | .tableScan i _ _ _ => i
  | .inlineTable i _ => i
  | .temp i => i
  | .pipelineBreakerScan i _ => i
  | .select i => i
  | .map i => i
  | .sort i _ => i
  | .groupBy i _ => i
  | .join i _ _ => i
  | .groupJoin i _ => i
  | .earlyProbe i _ => i
  | .setOperation i _ _ => i
  | .window i => i
  | .iteration i => i
  | .iterationScan i => i
  | .arrayUnnest i => i
  | .regexSplit i => i
  | .subquery i => i
  | .custom _ i _ => i

/-- `getattr(op, "limit", None)`. -/
def QueryOperator.limitField : QueryOperator → Json
  | .sort _ l => l
  | .custom _ _ l => l
  | _ => .null

/-- `getattr(op, "name", "")`, compared against string literals. -/
def QueryOperator.nameField : QueryOperator → Json
  | .custom n _ _ => n
  | _ => .str ""

/-- The `ClickHouse` branch of `Sort.fill` and of the `"Limit"` case of
`CustomOperator.fill`: the ordered candidate-key `or`-chain for the limit
value (`plan.get("Limit") or plan.get("limit") or plan.get("rows_limit") or
plan.get("RowsRead")`).  Requires a dict receiver. -/
def ch_limit_chain (plan : Json) : Json :=
  pyOr (jget plan "Limit") (pyOr (jget plan "limit") (pyOr (jget plan "rows_limit") (jget plan "RowsRead")))

/-- `self.limit = int(limit_val) if limit_val is not None else None`, with
the surrounding `try/except` that keeps the raw value on a failed
coercion. -/
def ch_limit_coerce (lv : Json) : Json :=
  if lv.isNull then .null
  else
    match pyIntJ lv with
    | some n => .num n
    | none => lv

/-- `fill(plan, DBMSType.ClickHouse)`: the `ClickHouse` branches of the
per-variant `fill` methods.  `plan.get` on a non-dict receiver raises
`AttributeError`, hence the `Except`. -/
def QueryOperator.fill_clickhouse : QueryOperator → Json → Except String QueryOperator
  | .tableScan i tn ts ty, plan =>
    match plan with
    | .obj _ =>
      let storage := pyOr (jget plan "Storage") (pyOr (jget plan "storage") (.obj []))
      let tn1 : Json :=
        match storage with
        | .obj _ => jget storage "Table"
        | _ => tn
      let tn2 : Json := if pyTruthy tn1 then tn1 else jget plan "Table"
      let tn3 : Json :=
        match tn2 with
        | .str s =>
          let parts := strSplitDot s
          if parts.length ≥ 3 then .str (strJoin "." (parts.take 3)) else .str s
        | v => v
      let tn4 : Json :=
        if pyTruthy tn3 then tn3
        else
          let description := pyOr (jget plan "Description") (jget plan "description")
          match description with
          | .str d => if pyStrip d ≠ "" then .str (removePfxStr (pyStrip d) "clickhouse.") else tn3
          | _ => tn3
      .ok (.tableScan i tn4 ts ty)
    | _ => .error "AttributeError: get"
  | .sort i _, plan =>
    match plan with
    | .obj _ => .ok (.sort i (ch_limit_coerce (ch_limit_chain plan)))
    | _ => .error "AttributeError: get"
  | .groupBy i _, plan =>
    match plan with
    | .obj _ => .ok (.groupBy i (pyOr (jget plan "method") (jget plan "Method")))
    | _ => .error "AttributeError: get"
  | .join i ty me, plan =>
    match plan with
    | .obj _ =>
      let description := strToLower (pyStr (jgetD plan "Description" (.str "")))
      let join_type := jgetD plan "Join" (jgetD plan "join_type" (jget plan "Type"))
      let ty1 : Json :=
        match join_type with
        | .str s => .str (strToLower s)
        | _ => ty
      let ty2 : Json :=
        if ty1.isNull then
          if strContains description "left" then .str "leftouter"
          else if strContains description "right" then .str "rightouter"
          else if strContains description "full" then .str "fullouter"
          else if strContains description "semi" then .str "semi"
          else if strContains description "anti" then .str "anti"
          else if strContains description "cross" then .str "cross"
          else if strContains description "inner" then .str "inner"
          else if description ≠ "" then .str "inner"
          else ty1
        else ty1
      let algorithm := pyOr (jget plan "Algorithm") (jget plan "algorithm")
      let me1 : Json :=
        match algorithm with
        | .str a =>
          let al := strToLower a
          if strContains al "hash" then .str "hash"
          else if strContains al "merge" then .str "merge"
          else if strContains al "nested" || strContains al "loop" then .str "nl"
          else me
        | _ => me
      .ok (.join i ty2 me1)
    | _ => .error "AttributeError: get"
  | .custom n i l, plan =>
    if n.isStrEq "Limit" then
      match plan with
      | .obj _ => .ok (.custom n i (ch_limit_coerce (ch_limit_chain plan)))
      | _ => .error "AttributeError: get"
    else .ok (.custom n i l)
  | op, _ => .ok op

/-- `a or b` on optional strings (the only Python `or`-chains the SQL
Server `fill` branches perform): an empty string is falsy. -/
def pyOrOS (a b : Option String) : Option String :=
  match a with
  | some s => if s ≠ "" then some s else b
  | none => b

/-- Attribute lookup in an XML attribute dict. -/
def attrsGet (l : List (String × String)) (k : String) : Option String :=
  (l.find? (fun p => p.1 = k)).map (fun p => p.2)

/-- `fill(plan_info, DBMSType.SQLServer)`: the `SQLServer` branches of the
per-variant `fill` methods, over the assembled `plan_info` payload.  These
branches are total. -/
def QueryOperator.fill_sqlserver : QueryOperator → SqlPlanInfo → QueryOperator
  | .tableScan i _ ts ty, info =>
    let tn1 : Json :=
      match info.object with
      | some (.attrs l) =>
        let table := pyOrOS (attrsGet l "Table") (attrsGet l "table")
        let schema := pyOrOS (attrsGet l "Schema") (attrsGet l "schema")
        let db := pyOrOS (attrsGet l "Database") (attrsGet l "database")
        let parts := ([db, schema, table].filterMap id).filter (fun p => p ≠ "")
        .str (strJoin "." parts)
      | some (.sname s) => .str s
      | none => .null
    let tn2 : Json := if pyTruthy tn1 then tn1 else .null
    let tn3 : Json :=
      match tn2 with
      | .str s => if s ≠ "" then .str ((strSplitDot s).getLastD "") else tn2
      | v => v
    .tableScan i tn3 ts ty
  | .sort i _, info =>
    .sort i (match info.limit with | some n => .num n | none => .null)
  | .groupBy i _, info =>
    .groupBy i (match info.agg_method with | some m => .str m | none => .null)
  | .join i ty me, info =>
    .join i (match info.join_type with | some t => .str t | none => ty)
            (match info.join_method with | some m => .str m | none => me)
  | .custom n i l, info =>
    if strToLower (pyStr n) = "top" then
      .custom n i (match info.limit with | some v => .num v | none => .null)
    else .custom n i l
  | op, _ => op

/-! ## Plan tree model

`plannode.py` and `queryplan.py` are not part of the provided sources (only
their importers are).  Modelled from the spec: `LeafNode`/`InnerNode` are
pure data constructors wrapping an operator with estimated/exact cardinality,
an optional opaque system representation, and (for inner nodes) the ordered
children; `QueryPlan` pairs the query text with the root node. -/

/-- Raw cell value of a flat SQL Server statistics row. -/
inductive RVal where
  | vnone
  | vint (n : Int)
  | vstr (s : String)
deriving DecidableEq

/-- A flat statistics row keyed by column name. -/
def RowDict := List (String × RVal)

/-- An XML element of a SQL Server showplan document. -/
inductive XmlElem where
  | mk (tag : String) (attrib : List (String × String)) (children : List XmlElem)

/-- Tag of an element. -/
def XmlElem.tag : XmlElem → String
  | .mk t _ _ => t

/-- Attribute dict of an element. -/
def XmlElem.attrib : XmlElem → List (String × String)
  | .mk _ a _ => a

/-- Child elements, in document order. -/
def XmlElem.children : XmlElem → List XmlElem
  | .mk _ _ c => c

/-- Opaque per-node debug snapshot: a copied raw JSON dict (children keys
stripped), a serialized XML element, a raw statistics row, or the literal
string attached to the synthetic root. -/
inductive SysRep where
  | jsonRep (j : Json)
  | xmlRep (e : XmlElem)
  | rowRep (r : RowDict)
  | note (s : String)

/-- Modelled from the spec: plan tree nodes (`plannode.py`), a leaf node
with no children or an inner node with ordered children. -/
inductive PlanNode where
  | leaf (operator : QueryOperator) (estimated_cardinality exact_cardinality : Option Int)
      (system_representation : Option SysRep)
  | inner (operator : QueryOperator) (estimated_cardinality exact_cardinality : Option Int)
      (children : List PlanNode) (system_representation : Option SysRep)

/-- Operator of a node. -/
def PlanNode.operator : PlanNode → QueryOperator
  | .leaf op _ _ _ => op
  | .inner op _ _ _ _ => op

/-- Estimated cardinality of a node. -/
def PlanNode.estimated_cardinality : PlanNode → Option Int
  | .leaf _ e _ _ => e
  | .inner _ e _ _ _ => e

/-- Exact cardinality of a node. -/
def PlanNode.exact_cardinality : PlanNode → Option Int
  | .leaf _ _ e _ => e
  | .inner _ _ e _ _ => e

/-- Whether a node is a `LeafNode`. -/
def PlanNode.isLeafNode : PlanNode → Bool
  | .leaf _ _ _ _ => true
  | .inner _ _ _ _ _ => false

/-- Replace the operator of a node (used by the destructive
`merged_child.operator.limit = ...` update of the Limit/Sort merge). -/
def PlanNode.withOperator (n : PlanNode) (op : QueryOperator) : PlanNode :=
  match n with
  | .leaf _ e x s => .leaf op e x s
  | .inner _ e x c s => .inner op e x c s

/-- Modelled from the spec: the plan envelope (`queryplan.py`), query text
plus root node. -/
structure QueryPlan where
  text : String
  plan : PlanNode

/-- The synthetic root both parsers build around the real top-level node:
an `InnerNode` wrapping `Result(-1)` with the child's cardinalities and the
literal marker string as system representation. -/
def result_root (plan : PlanNode) : PlanNode :=
  .inner (.result (.num (-1))) plan.estimated_cardinality plan.exact_cardinality
    [plan] (some (.note "// added by benchy"))

/-! ## ClickHouse parser (`src/queryplan/parsers/clickhouseparser.py`)

The mutable `self.op_counter` of the parser instance is threaded explicitly
(each parse uses a fresh instance, so the counter starts at `0`); recursion
is bounded by explicit fuel, mirroring Python's recursion limit (a fuel of
`jsonSize` of the payload is always sufficient for the tree-shaped payloads
the recursion actually descends). -/

mutual

/-- Size measure of a JSON value, used as the recursion fuel bound. -/
def jsonSize : Json → Nat
  | .null => 1
  | .bool _ => 1
  | .num _ => 1
  | .str _ => 1
  | .arr xs => 1 + jsonSizeList xs
  | .obj fs => 1 + jsonSizeFields fs

/-- Sum of sizes of a list of JSON values. -/
def jsonSizeList : List Json → Nat
  | [] => 0
  | x :: rest => jsonSize x + jsonSizeList rest

/-- Sum of sizes of the fields of a JSON object. -/
def jsonSizeFields : List (String × Json) → Nat
  | [] => 0
  | (_, v) :: rest => 1 + jsonSize v + jsonSizeFields rest

end

namespace ClickHouseParser

/-- Ordered candidate keys for child subplans. -/
def child_keys : List String := ["Plans", "plans", "Children", "children", "sources"]

/-- Ordered candidate keys for the operator name. -/
def name_keys : List String := ["Node Type", "NodeType", "PlanStep", "Plan Node Type", "Name", "type", "Step"]

/-- Ordered candidate keys for an embedded operator id. -/
def id_keys : List String := ["PlanNodeId", "Plan Node Id", "PlanNodeID", "NodeId", "Node ID"]

/-- `_extract_children`: the first present-and-truthy candidate key's raw
value, else the empty list; non-dict nodes have no children. -/
def extract_children (plan : Json) : Json :=
  match plan with
  | .obj _ =>
    match child_keys.find? (fun k => jhas plan k && pyTruthy (jget plan k)) with
    | some k => jget plan k
    | none => .arr []
  | _ => .arr []

/-- `_extract_operator_name`: the first present-and-truthy candidate key's
raw value, else `plan.get("plan_node_name", "Unknown")`; `str(plan)` for a
non-dict node. -/
def extract_operator_name (plan : Json) : Json :=
  match plan with
  | .obj _ =>
    match name_keys.find? (fun k => jhas plan k && pyTruthy (jget plan k)) with
    | some k => jget plan k
    | none => jgetD plan "plan_node_name" (.str "Unknown")
  | _ => .str (pyStr plan)

/-- `_extract_operator_id`: an embedded id coerced with `int(...)` (the raw
value is kept when the coercion raises), else the next counter value. -/
def extract_operator_id (plan : Json) (op_counter : Nat) : OpId × Nat :=
  match plan with
  | .obj _ =>
    match id_keys.find? (fun k => jhas plan k && !(jget plan k).isNull) with
    | some k =>
      match pyIntJ (jget plan k) with
      | some n => (.num n, op_counter)
      | none => (.raw (jget plan k), op_counter)
    | none => (.num op_counter, op_counter + 1)
  | _ => (.num op_counter, op_counter + 1)

/-- `_safe_int`: `int(float(value))` for strings, `int(value)` otherwise,
`None` when the coercion raises. -/
def safe_int : Json → Option Int
  | .str s => pyParseFloatTrunc s
  | .num n => some n
  | .bool b => some (if b then 1 else 0)
  | _ => none

/-- The `Statistics` dict of a raw node (`plan.get("Statistics") or
plan.get("statistics") or {}`). -/
def stats_of (plan : Json) : Json :=
  pyOr (jget plan "Statistics") (pyOr (jget plan "statistics") (.obj []))

/-- The raw estimated-rows lookup inside `_extract_cardinalities`. -/
def raw_estimated (stats : Json) : Option Int :=
  safe_int (pyOr (jget stats "row_count") (pyOr (jget stats "estimated_rows")
    (pyOr (jget stats "rowCount") (jget stats "rows_before_limit_at_least"))))

/-- The raw exact-rows lookup inside `_extract_cardinalities`. -/
def raw_exact (stats : Json) : Option Int :=
  safe_int (pyOr (jget stats "rows") (pyOr (jget stats "rows_before_limit") (jget stats "output_rows")))

/-- `_extract_cardinalities`: `(estimated, exact)`, with the exact count
falling back to the estimate when unavailable.  A non-dict truthy
`Statistics` value raises (`stats.get`). -/
def extract_cardinalities (plan : Json) : Except String (Option Int × Option Int) :=
  match plan with
  | .obj _ =>
    let stats := stats_of plan
    match stats with
    | .obj _ =>
      let estimated := raw_estimated stats
      let exact := raw_exact stats
      .ok (estimated, match exact with | none => estimated | some e => some e)
    | _ => .error "AttributeError: get"
  | _ => .ok (none, none)

/-- `create_empty_operator`: the ordered, case-insensitive, first-match-wins
name rules. -/
def create_empty_operator (operator_name : Json) (operator_id : OpId) : QueryOperator :=
  let normalized := strToLower (pyStr operator_name)
  if strStartsWith normalized "read" then .tableScan operator_id .null .null .null
  else if strStartsWith normalized "aggregating" || strStartsWith normalized "group" then .groupBy operator_id .null
  else if strStartsWith normalized "sorting" || strContains normalized " sort" || strStartsWith normalized "order by" then .sort operator_id .null
  else if strContains normalized "join" then .join operator_id .null .null
  else if strStartsWith normalized "filter" then .select operator_id
  else if normalized = "arrayjoin" || normalized = "array join" then .arrayUnnest operator_id
  else if normalized = "union" || normalized = "intersect" || normalized = "except" then .setOperation operator_id (.str normalized) true
  else if strStartsWith normalized "limit" then .custom (.str "Limit") operator_id .null
  else if strStartsWith normalized "projection" || strStartsWith normalized "expression" then .map operator_id
  else .custom operator_name operator_id .null

/-- `is_leaf_operator`: zero extractable children (`len` may raise on a
non-sized children value). -/
def is_leaf_operator (plan : Json) : Except String Bool :=
  match pyLen (extract_children plan) with
  | .ok n => .ok (n = 0)
  | .error e => .error e

/-- `json_plan.copy()` followed by popping the child keys (the system
representation snapshot). -/
def copy_strip (plan : Json) : Except String Json :=
  match plan with
  | .obj fs => .ok (.obj (fs.filter (fun f => !child_keys.contains f.1)))
  | .arr xs =>
    if xs.any (fun x => child_keys.any (fun k => x.isStrEq k)) then .error "TypeError: pop"
    else .ok (.arr xs)
  | _ => .error "AttributeError: copy"

/-- `build_initial_plan`: the recursive canonicalization pass (expression
elision, operator construction and fill, cardinality extraction, Limit/Sort
merge, leaf/inner construction), threading the id counter.  The children
loop `[self.build_initial_plan(child) for child in children_nodes]` is the
fold at the end.  Fuel models Python's recursion limit and decreases with
tree depth; the entry point picks a sufficient amount. -/
def build_initial_plan (incl : Bool) : Nat → Json → Nat → Except String (PlanNode × Nat)
  | 0, _, _ => .error "RecursionError: maximum recursion depth exceeded"
  | fuel + 1, plan, ctr =>
    let operator_name := extract_operator_name plan
    let (operator_id, ctr1) := extract_operator_id plan ctr
    let normalized_name := strToLower (pyStr operator_name)
    let children_nodes := extract_children plan
    if strStartsWith normalized_name "expression" && pyTruthy children_nodes then
      match pyIndex0 children_nodes with
      | .error e => .error e
      | .ok c0 => build_initial_plan incl fuel c0 ctr1
    else
      let operator_name := if strStartsWith normalized_name "expression" then Json.str "Map" else operator_name
      match (create_empty_operator operator_name operator_id).fill_clickhouse plan with
      | .error e => .error e
      | .ok operator =>
        match extract_cardinalities plan with
        | .error e => .error e
        | .ok (estimated_cardinality, exact_cardinality) =>
          match (if incl then (copy_strip plan).map (fun j => some (SysRep.jsonRep j)) else .ok none) with
          | .error e => .error e
          | .ok system_representation =>
            let mergeStep : Except String (Option PlanNode × Nat) :=
              if operator.operator_type = OperatorType.CustomOperator ∧ operator.nameField.isStrEq "Limit" ∧ pyTruthy children_nodes then
                match pyIndex0 children_nodes with
                | .error e => .error e
                | .ok c0 =>
                  match build_initial_plan incl fuel c0 ctr1 with
                  | .error e => .error e
                  | .ok (merged_child, ctr2) =>
                    if merged_child.operator.operator_type = OperatorType.Sort then
                      let merged_child :=
                        if !operator.limitField.isNull then
                          match merged_child.operator with
                          | .sort sid _ => merged_child.withOperator (.sort sid operator.limitField)
                          | _ => merged_child
                        else merged_child
                      .ok (some merged_child, ctr2)
                    else .ok (none, ctr2)
              else .ok (none, ctr1)
            match mergeStep with
            | .error e => .error e
            | .ok (some merged, ctr2) => .ok (merged, ctr2)
            | .ok (none, ctr2) =>
              match is_leaf_operator plan with
              | .error e => .error e
              | .ok true => .ok (.leaf operator estimated_cardinality exact_cardinality system_representation, ctr2)
              | .ok false =>
                match pyIterL children_nodes with
                | .error e => .error e
                | .ok kids =>
                  match kids.foldl
                      (fun (acc : Except String (List PlanNode × Nat)) c =>
                        match acc with
                        | .error e => .error e
                        | .ok (ns, c0) =>
                          match build_initial_plan incl fuel c c0 with
                          | .error e => .error e
                          | .ok (n, c1) => .ok (ns ++ [n], c1))
                      (.ok ([], ctr2)) with
                  | .error e => .error e
                  | .ok (children, ctr3) =>
                    .ok (.inner operator estimated_cardinality exact_cardinality children system_representation, ctr3)

/-- `parse_json_plan`: unwrap the payload, build the real subtree, and wrap
it under the synthetic `Result` root carrying the child's cardinalities. -/
def parse_json_plan (incl : Bool) (query : String) (json_plan : Json) : Except String QueryPlan :=
  match json_plan with
  | .obj _ =>
    let plan_root := pyOr (jget json_plan "Plan") (pyOr (jget json_plan "plan") json_plan)
    let plan_root :=
      match plan_root with
      | .arr (x :: _) => x
      | .arr [] => .obj []
      | v => v
    match build_initial_plan incl (jsonSize plan_root + 1) plan_root 0 with
    | .error e => .error e
    | .ok (plan, _) => .ok ⟨query, result_root plan⟩
  | _ => .error "AttributeError: get"

end ClickHouseParser

/-! ## SQL Server parser (`src/queryplan/parsers/sqlserverparser.py`) -/

/-- First direct child with the given tag (`elem.find(tag)`). -/
def findChildTag (e : XmlElem) (t : String) : Option XmlElem :=
  e.children.find? (fun c => c.tag = t)

mutual

/-- One step of `root.find(".//RelOp")`: the element itself when tagged
`RelOp`, else its first matching descendant in document order. -/
def findRelOpElem : XmlElem → Option XmlElem
  | .mk t a c =>
    if t = "RelOp" then some (.mk t a c)
    else findRelOpIn c

/-- `root.find(".//RelOp")` over a sibling list: first matching descendant
in document order. -/
def findRelOpIn : List XmlElem → Option XmlElem
  | [] => none
  | e :: rest =>
    match findRelOpElem e with
    | some r => some r
    | none => findRelOpIn rest

end

/-- Raw plan payloads accepted by `SQLServerParser.parse_json_plan`: a
showplan XML document (handed over as a string in Python and parsed with
`ET.fromstring`; modelled as the already-parsed element tree) or the flat
`SHOWPLAN_ALL` statistics rows. -/
inductive SqlPayload where
  | xmlDoc (root : XmlElem)
  | rows (rs : List (List RVal))

mutual

/-- Size measure of an XML element, used as the recursion fuel bound. -/
def xmlSize : XmlElem → Nat
  | .mk _ _ c => 1 + xmlSizeList c

/-- Sum of sizes of a list of XML elements. -/
def xmlSizeList : List XmlElem → Nat
  | [] => 0
  | e :: rest => xmlSize e + xmlSizeList rest

end

namespace SQLServerParser

/-- `_decide_operator_name`: joint decision from `PhysicalOp`/`LogicalOp`,
ordered and first-match-wins. -/
def decide_operator_name (physical logical : String) : String :=
  let phys := strToLower physical
  let logical_lower := strToLower logical
  if strStartsWith phys "hash match" then
    if strContains logical_lower "aggregate" then "Hash Aggregate" else "Hash Match"
  else if strStartsWith phys "stream aggregate" then "Stream Aggregate"
  else if strStartsWith phys "merge join" then "Merge Join"
  else if strStartsWith phys "nested loops" then "Nested Loops"
  else if strStartsWith phys "top" then "Top"
  else if strStartsWith phys "concat" then "Concatenation"
  else if strStartsWith phys "filter" then "Filter"
  else if strStartsWith phys "sort" then "Sort"
  else if strStartsWith phys "compute" then "Compute Scalar"
  else if strStartsWith phys "table scan" || strStartsWith phys "index scan"
      || strStartsWith phys "index seek" || strStartsWith phys "clustered index" then physical
  else if physical ≠ "" then physical else logical

/-- The name-prefix group that resolves to a table scan in
`create_empty_operator`. -/
def scan_name_rule (name : String) : Bool :=
  strStartsWith name "table scan" || strStartsWith name "index scan"
    || strStartsWith name "index seek" || strStartsWith name "clustered index"

/-- The join-branch condition in `create_empty_operator`. -/
def join_name_rule (name : String) : Bool :=
  strStartsWith name "hash match" || strStartsWith name "merge join"
    || strStartsWith name "nested loops" || strContains name "join"

/-- `create_empty_operator`: ordered, case-insensitive, first-match-wins
name rules; inside the join branch the aggregate check is evaluated
first. -/
def create_empty_operator (operator_name : String) (operator_id : OpId) : QueryOperator :=
  let name := strToLower operator_name
  if scan_name_rule name then .tableScan operator_id .null .null .null
  else if strStartsWith name "sort" then .sort operator_id .null
  else if strStartsWith name "filter" then .select operator_id
  else if strStartsWith name "compute" then .map operator_id
  else if join_name_rule name then
    if strContains name "aggregate" then .groupBy operator_id .null
    else .join operator_id .null .null
  else if strContains name "aggregate" then .groupBy operator_id .null
  else if strStartsWith name "top" then .custom (.str "Top") operator_id .null
  else if strStartsWith name "concat" || strStartsWith name "concatenation" then
    .setOperation operator_id (.str "unionall") true
  else .custom (.str operator_name) operator_id .null

/-- `_annotate_join_or_agg`: derive join type/method and aggregation method
annotations from the physical/logical operator names. -/
def annotate_join_or_agg (physical logical : String) (info : SqlPlanInfo) : SqlPlanInfo :=
  let phys_lower := strToLower physical
  let logical_lower := strToLower logical
  let info :=
    if strContains logical_lower "join" || strContains phys_lower "join" then
      let join_type : Option String :=
        if strContains logical_lower "left anti" then some "leftanti"
        else if strContains logical_lower "right anti" then some "rightanti"
        else if strContains logical_lower "left semi" then some "leftsemi"
        else if strContains logical_lower "right semi" then some "rightsemi"
        else if strContains logical_lower "inner" then some "inner"
        else if strContains logical_lower "left outer" then some "leftouter"
        else if strContains logical_lower "right outer" then some "rightouter"
        else if strContains logical_lower "full outer" then some "fullouter"
        else if strContains logical_lower "cross" then some "cross"
        else if strContains logical_lower "semi" then some "semi"
        else if strContains logical_lower "anti" then some "anti"
        else none
      let join_method : Option String :=
        if strContains phys_lower "hash" then some "hash"
        else if strContains phys_lower "merge" then some "merge"
        else if strContains phys_lower "loop" then some "nl"
        else if strContains phys_lower "adaptive" then some "adaptive"
        else info.join_method
      { info with join_type := join_type, join_method := join_method }
    else info
  if strContains logical_lower "aggregate" || strContains phys_lower "aggregate" then
    if strContains phys_lower "hash" then { info with agg_method := some "hash" }
    else if strContains phys_lower "stream" then { info with agg_method := some "stream" }
    else info
  else info

/-- `_extract_children` (XML): the `RelOp` elements under a `Children`
element when present, else the direct `RelOp` children. -/
def extract_children (e : XmlElem) : List XmlElem :=
  match findChildTag e "Children" with
  | some children_elem => children_elem.children.filter (fun c => c.tag = "RelOp")
  | none => e.children.filter (fun c => c.tag = "RelOp")

/-- `_extract_operator_id` (XML): the `NodeId` attribute coerced with
`int(...)` (kept verbatim when the coercion raises), else the counter. -/
def extract_operator_id (e : XmlElem) (op_counter : Nat) : OpId × Nat :=
  match attrsGet e.attrib "NodeId" with
  | some node_id =>
    match pyParseInt node_id with
    | some n => (.num n, op_counter)
    | none => (.rstr node_id, op_counter)
  | none => (.num op_counter, op_counter + 1)

/-- `_safe_int` applied to an optional attribute string:
`int(float(value))`, `None` on a missing value or failed coercion. -/
def safe_int_attr : Option String → Option Int
  | none => none
  | some s => pyParseFloatTrunc s

/-- The cardinality extraction of `build_relop`: `EstimateRows` and
`ActualRows` attributes through `_safe_int`, the exact count falling back to
the estimate when unavailable. -/
def xml_cardinalities (e : XmlElem) : Option Int × Option Int :=
  let estimated_cardinality := safe_int_attr (attrsGet e.attrib "EstimateRows")
  let exact0 := safe_int_attr (attrsGet e.attrib "ActualRows")
  (estimated_cardinality, match exact0 with | none => estimated_cardinality | some x => some x)

/-- `_annotate_object` (XML): the attribute dict of the `Object` element
under the first typed scan child found, in the fixed tag order. -/
def annotate_object (e : XmlElem) : Option ObjVal :=
  match ["IndexScan", "IndexSeek", "TableScan", "ClusteredIndexScan", "ClusteredIndexSeek"].findSome?
      (fun t => findChildTag e t) with
  | some child => (findChildTag child "Object").map (fun o => ObjVal.attrs o.attrib)
  | none => none

/-- `build_relop`: recursively canonicalize an XML `RelOp` element,
threading the id counter.  The children loop `[self.build_relop(child) for
child in children_relops]` is the fold at the end.  Fuel models Python's
recursion limit; the entry point picks an amount sufficient for the whole
document. -/
def build_relop (incl : Bool) : Nat → XmlElem → Nat → Except String (PlanNode × Nat)
  | 0, _, _ => .error "RecursionError: maximum recursion depth exceeded"
  | fuel + 1, e, ctr =>
    let physical := (attrsGet e.attrib "PhysicalOp").getD "Unknown"
    let logical := (attrsGet e.attrib "LogicalOp").getD physical
    let operator_name := decide_operator_name physical logical
    let (operator_id, ctr1) := extract_operator_id e ctr
    let cards := xml_cardinalities e
    let info1 := annotate_join_or_agg physical logical {}
    let info2 :=
      if strToLower operator_name = "top" then
        match findChildTag e "Top" with
        | some top_elem => { info1 with limit := safe_int_attr (attrsGet top_elem.attrib "RowCount") }
        | none => info1
      else info1
    let info3 := { info2 with object := annotate_object e }
    let operator := (create_empty_operator operator_name operator_id).fill_sqlserver info3
    let system_representation := if incl then some (SysRep.xmlRep e) else none
    let children_relops := extract_children e
    if children_relops.isEmpty then
      .ok (.leaf operator cards.1 cards.2 system_representation, ctr1)
    else
      match children_relops.foldl
          (fun (acc : Except String (List PlanNode × Nat)) c =>
            match acc with
            | .error err => .error err
            | .ok (ns, c0) =>
              match build_relop incl fuel c c0 with
              | .error err => .error err
              | .ok (n, c1) => .ok (ns ++ [n], c1))
          (.ok ([], ctr1)) with
      | .error err => .error err
      | .ok (children, ctr2) =>
        .ok (.inner operator cards.1 cards.2 children system_representation, ctr2)

/-! ### Flat `SHOWPLAN_ALL` statistics rows -/

/-- The fixed column layout of a statistics row. -/
def columns : List String :=
  ["Rows", "Executes", "StmtText", "StmtId", "NodeId", "Parent", "PhysicalOp", "LogicalOp",
   "Argument", "DefinedValues", "EstimateRows", "EstimateIO", "EstimateCPU", "AvgRowSize",
   "TotalSubtreeCost", "OutputList", "Warnings", "Type", "Parallel", "EstimateExecutions"]

/-- `entry.get(col)` on a row dict (`None` for a missing key). -/
def rget (r : RowDict) (k : String) : RVal :=
  match r.find? (fun p => p.1 = k) with
  | some p => p.2
  | none => .vnone

/-- Python truthiness of a row cell. -/
def rvTruthy : RVal → Bool
  | .vnone => false
  | .vint n => n ≠ 0
  | .vstr s => s ≠ ""

/-- Python `str(...)` of a row cell. -/
def pyStrR : RVal → String
  | .vnone => "None"
  | .vint n => toString n
  | .vstr s => s

/-- Python `int(...)` of a row cell; raises on `None` and unparseable
strings. -/
def pyIntR : RVal → Except String Int
  | .vint n => .ok n
  | .vstr s =>
    match pyParseInt s with
    | some n => .ok n
    | none => .error "ValueError: invalid literal for int()"
  | .vnone => .error "TypeError: int() argument"

/-- A row cell when a `str` is required (`.lower()` raises otherwise). -/
def rvAsStr : RVal → Option String
  | .vstr s => some s
  | _ => none

/-- `_safe_int` on a row cell. -/
def rv_safe_int : RVal → Option Int
  | .vnone => none
  | .vint n => some n
  | .vstr s => pyParseFloatTrunc s

/-- The row-filtering prefix of `_build_from_rows`: keep rows wide enough
for the column layout, zip them into dicts, and keep only `PLAN_ROW`-typed
(or untyped) entries. -/
def row_entries (rows : List (List RVal)) : List RowDict :=
  ((rows.filter (fun r => columns.length ≤ r.length)).map (fun r => columns.zip r)).filter
    (fun entry => !(rvTruthy (rget entry "Type") && strToUpper (pyStrR (rget entry "Type")) ≠ "PLAN_ROW"))

/-- Python-dict insertion into an association list: an existing key keeps
its position and gets the new value, a new key is appended. -/
def dictInsert (m : List (Int × RowDict)) (k : Int) (v : RowDict) : List (Int × RowDict) :=
  if m.any (fun p => p.1 = k) then m.map (fun p => if p.1 = k then (k, v) else p)
  else m ++ [(k, v)]

/-- `node_map = {int(n["NodeId"]): n for n in nodes if n.get("NodeId") is
not None}`; `int(...)` may raise on a malformed id. -/
def node_map_of (entries : List RowDict) : Except String (List (Int × RowDict)) :=
  entries.foldlM
    (fun m n =>
      if rget n "NodeId" ≠ RVal.vnone then
        match pyIntR (rget n "NodeId") with
        | .error e => .error e
        | .ok k => .ok (dictInsert m k n)
      else .ok m)
    []

/-- `children_map.setdefault(parent, []).append(nid)`. -/
def childAppend (m : List (Int × List Int)) (k : Int) (v : Int) : List (Int × List Int) :=
  if m.any (fun p => p.1 = k) then m.map (fun p => if p.1 = k then (p.1, p.2 ++ [v]) else p)
  else m ++ [(k, [v])]

/-- The root-search and child-grouping loop of `_build_from_rows`: the first
node whose `Parent` is `None` or `0` becomes the root candidate, every other
node is appended to its parent's child list; `int(parent)` may raise. -/
def roots_and_children (node_map : List (Int × RowDict)) :
    Except String (Option Int × List (Int × List Int)) :=
  node_map.foldlM
    (fun (acc : Option Int × List (Int × List Int)) p =>
      let (root_id, children_map) := acc
      let parent := rget p.2 "Parent"
      if parent = RVal.vnone then
        .ok ((match root_id with | none => some p.1 | some r => some r), children_map)
      else
        match pyIntR parent with
        | .error e => .error e
        | .ok pv =>
          if pv = 0 then
            .ok ((match root_id with | none => some p.1 | some r => some r), children_map)
          else .ok (root_id, childAppend children_map pv p.1))
    (none, node_map.map (fun p => (p.1, ([] : List Int))))

/-- `_extract_top_limit`'s regular expression `TOP\s+(\d+)` matched at the
head of a character list (case-insensitive literal, at least one whitespace
character, a maximal digit run). -/
def matchTopAt (cs : List Char) : Option Int :=
  match cs with
  | t :: o :: p :: rest =>
    if t.toLower = 't' ∧ o.toLower = 'o' ∧ p.toLower = 'p' then
      let ws := rest.takeWhile Char.isWhitespace
      if ws.isEmpty then none
      else
        let after := rest.drop ws.length
        let digits := after.takeWhile Char.isDigit
        if digits.isEmpty then none
        else (digitsToNat digits).map (fun n => (n : Int))
    else none
  | _ => none

/-- Leftmost-match scan of `re.search`. -/
def scanFor {α : Type} (f : List Char → Option α) : List Char → Option α
  | [] => f []
  | c :: rest =>
    match f (c :: rest) with
    | some a => some a
    | none => scanFor f rest

/-- `_extract_top_limit`: `None` for non-string arguments, else the first
`TOP n` occurrence. -/
def extract_top_limit : RVal → Option Int
  | .vstr s => scanFor matchTopAt s.data
  | _ => none

/-- Drop a literal prefix from a character list. -/
def dropLit (cs : List Char) (lit : String) : Option (List Char) :=
  if lit.data.isPrefixOf cs then some (cs.drop lit.data.length) else none

/-- The bracketed object reference regular expression
`OBJECT:\(\[([^]]+)\]\.\[([^]]+)\]\.\[([^]]+)\]` matched at the head of a
character list. -/
def matchObjBracketAt (cs : List Char) : Option (String × String × String) :=
  match dropLit cs "OBJECT:([" with
  | none => none
  | some r1 =>
    let g1 := r1.takeWhile (fun c => c ≠ ']')
    if g1.isEmpty then none
    else
      match dropLit (r1.drop g1.length) "].[" with
      | none => none
      | some r2 =>
        let g2 := r2.takeWhile (fun c => c ≠ ']')
        if g2.isEmpty then none
        else
          match dropLit (r2.drop g2.length) "].[" with
          | none => none
          | some r3 =>
            let g3 := r3.takeWhile (fun c => c ≠ ']')
            if g3.isEmpty then none
            else
              match r3.drop g3.length with
              | ']' :: _ => some (String.mk g1, String.mk g2, String.mk g3)
              | _ => none

/-- The bare object reference regular expression `OBJECT:([^,]+)` matched at
the head of a character list. -/
def matchObjPlainAt (cs : List Char) : Option String :=
  match dropLit cs "OBJECT:" with
  | none => none
  | some r =>
    let g := r.takeWhile (fun c => c ≠ ',')
    if g.isEmpty then none else some (String.mk g)

/-- `_annotate_object_from_argument`: a `[db].[schema].[table]` reference
becomes a keyed object descriptor, a bare `OBJECT:` reference a stripped
string; non-string arguments and non-matching strings attach nothing. -/
def annotate_object_from_argument (arg : RVal) : Option ObjVal :=
  match arg with
  | .vstr s =>
    match scanFor matchObjBracketAt s.data with
    | some (db, sch, tbl) => some (.attrs [("Database", db), ("Schema", sch), ("Table", tbl)])
    | none =>
      match scanFor matchObjPlainAt s.data with
      | some g => some (.sname (pyStrip g))
      | none => none
  | _ => none

/-- The cardinality extraction of `build_node`: the `EstimateRows` and
`Rows` cells through `_safe_int`, the exact count falling back to the
estimate when unavailable. -/
def rows_cardinalities (info : RowDict) : Option Int × Option Int :=
  let estimated_cardinality := rv_safe_int (rget info "EstimateRows")
  let exact0 := rv_safe_int (rget info "Rows")
  (estimated_cardinality, match exact0 with | none => estimated_cardinality | some x => some x)

/-- The recursive `build_node` closure of `_build_from_rows`: materialize
the node for an id, recurse into its grouped children (the fold models the
list comprehension `[build_node(cid) for cid in children_ids]`), elide
single-child parallelism wrappers.  Fuel models Python's recursion limit
(reached only on cyclic `Parent` references). -/
def build_node (incl : Bool) (node_map : List (Int × RowDict)) (children_map : List (Int × List Int)) :
    Nat → Int → Except String PlanNode
  | 0, _ => .error "RecursionError: maximum recursion depth exceeded"
  | fuel + 1, node_id =>
    match node_map.find? (fun p => p.1 = node_id) with
    | none => .error "KeyError"
    | some entry =>
      let info := entry.2
      let physicalOp := rget info "PhysicalOp"
      let logicalOp := rget info "LogicalOp"
      let argument := rget info "Argument"
      let top_limit := extract_top_limit argument
      match rvAsStr physicalOp, rvAsStr logicalOp with
      | some phys, some logi =>
        let info1 := annotate_join_or_agg phys logi { limit := top_limit }
        let info2 := { info1 with object := annotate_object_from_argument argument }
        let operator_name := decide_operator_name phys logi
        let operator := (create_empty_operator operator_name (.num node_id)).fill_sqlserver info2
        let cards := rows_cardinalities info
        let children_ids : List Int :=
          match children_map.find? (fun p => p.1 = node_id) with
          | some p => p.2
          | none => []
        match children_ids.foldl
            (fun (acc : Except String (List PlanNode)) cid =>
              match acc with
              | .error e => .error e
              | .ok ns =>
                match build_node incl node_map children_map fuel cid with
                | .error e => .error e
                | .ok n => .ok (ns ++ [n]))
            (.ok []) with
        | .error e => .error e
        | .ok children_nodes =>
          let system_representation := some (SysRep.rowRep info)
          if strStartsWith (strToLower (pyStrR physicalOp)) "parallelism" ∧ children_nodes.length = 1 then
            match children_nodes with
            | [c] => .ok c
            | _ => .error "unreachable"
          else if children_nodes.isEmpty then
            .ok (.leaf operator cards.1 cards.2 system_representation)
          else
            .ok (.inner operator cards.1 cards.2 children_nodes system_representation)
      | _, _ => .error "AttributeError: lower"

/-- `_build_from_rows`: filter and key the rows, identify the root (first
zero/null-parent row, else the smallest node id), and materialize the tree
from it; no identifiable root is a fatal error. -/
def build_from_rows (incl : Bool) (rows : List (List RVal)) : Except String PlanNode :=
  let entries := row_entries rows
  match node_map_of entries with
  | .error e => .error e
  | .ok node_map =>
    match roots_and_children node_map with
    | .error e => .error e
    | .ok (root0, children_map) =>
      let root_id :=
        match root0 with
        | some r => some r
        | none => (node_map.map (fun p => p.1)).min?
      match root_id with
      | none => .error "No root node identified in SQL Server plan rows"
      | some rid => build_node incl node_map children_map (node_map.length + 1) rid

/-- `parse_json_plan`: parse the XML shape (string payloads) via the first
`RelOp` descendant, or the flat-rows shape via `_build_from_rows`, and wrap
the result under the synthetic `Result` root. -/
def parse_json_plan (incl : Bool) (query : String) (plan_payload : SqlPayload) :
    Except String QueryPlan :=
  match plan_payload with
  | .xmlDoc root =>
    match findRelOpIn root.children with
    | none => .error "No RelOp node found in SQL Server plan"
    | some relop =>
      match build_relop incl (xmlSize relop + 1) relop 0 with
      | .error e => .error e
      | .ok (plan, _) => .ok ⟨query, result_root plan⟩
  | .rows rs =>
    match build_from_rows incl rs with
    | .error e => .error e
    | .ok plan => .ok ⟨query, result_root plan⟩

end SQLServerParser

/-! ## Derived notions used by the verification statements -/

/-- Whether a parse attempt succeeded. -/
def Except.isOkB {ε α : Type} : Except ε α → Bool
  | .ok _ => true
  | .error _ => false

/-- The canonical-root shape the specification requires of every parsed
plan: an `InnerNode` wrapping a `Result` operator with sentinel id `-1` and
exactly one child. -/
def isCanonicalRoot (n : PlanNode) : Prop :=
  ∃ est ex c s, n = PlanNode.inner (.result (.num (-1))) est ex [c] s

/-- The estimated cardinality of the single child under the root of a
successfully parsed plan (`none` when the parse failed or the root does not
have exactly one child). -/
def childEstimated (r : Except String QueryPlan) : Option (Option Int) :=
  match r with
  | .ok qp =>
    match qp.plan with
    | .inner _ _ _ [c] _ => some c.estimated_cardinality
    | _ => none
  | .error _ => none

/-- The raw payload of the specification's Scenario A:
`{"Plan": {"Node Type": "Expression", "Plans": [{"Node Type": "Aggregating",
"Statistics": {"rows": 10}, "Plans": []}]}}`. -/
def scenario_a_payload : Json :=
  .obj [("Plan", .obj [("Node Type", .str "Expression"),
    ("Plans", .arr [.obj [("Node Type", .str "Aggregating"),
      ("Statistics", .obj [("rows", .num 10)]),
      ("Plans", .arr [])]])])]

/-- A ClickHouse raw node whose operator is a Limit over a Sort: the
Limit/Sort merge fires on it. -/
def limit_sort_payload : Json :=
  .obj [("Node Type", .str "Limit"), ("Limit", .num 5),
        ("Plans", .arr [.obj [("Node Type", .str "Sorting")]])]

/-- A flat statistics row (20 cells, `PLAN_ROW`-typed) whose `Parent` cell
holds the non-numeric string `"x"` while its `NodeId` is `1`. -/
def bad_parent_row : List RVal :=
  [.vint 7, .vnone, .vnone, .vint 1, .vint 1, .vstr "x", .vstr "Sort", .vstr "Sort",
   .vnone, .vnone, .vstr "10.0", .vnone, .vnone, .vnone, .vnone, .vnone, .vnone,
   .vstr "PLAN_ROW", .vnone, .vnone]

/-- A ClickHouse payload with a Limit wrapping a Sort that itself wraps a
second, childless Limit node: the outer merge fires, but the inner Limit
survives inside the merged Sort subtree. -/
def c5_nested_payload : Json :=
  .obj [("Node Type", .str "Limit"), ("Limit", .num 7),
        ("Plans", .arr [.obj [("Node Type", .str "Sorting"),
                              ("Plans", .arr [.obj [("Node Type", .str "Limit")]])]])]

mutual

/-- Whether a canonical tree contains an operator whose `name` is
`"Limit"`. -/
def PlanNode.mentionsLimit : PlanNode → Bool
  | .leaf op _ _ _ => op.nameField.isStrEq "Limit"
  | .inner op _ _ cs _ => op.nameField.isStrEq "Limit" || mentionsLimitList cs

/-- `mentionsLimit` over a child list. -/
def mentionsLimitList : List PlanNode → Bool
  | [] => false
  | n :: ns => PlanNode.mentionsLimit n || mentionsLimitList ns

end

/-! ## Helper lemmas -/

/-- The `ClickHouse` `fill` branches never change the kind of an operator
record nor its custom name. -/
theorem fill_clickhouse_preserves (op : QueryOperator) (plan : Json) (op' : QueryOperator)
    (h : op.fill_clickhouse plan = .ok op') :
    op'.operator_type = op.operator_type ∧ op'.nameField = op.nameField := by
  cases op with
  | tableScan i tn ts ty =>
    cases plan <;> simp [QueryOperator.fill_clickhouse] at h <;>
      simp [← h, QueryOperator.operator_type, QueryOperator.nameField]
  | sort i l =>
    cases plan <;> simp [QueryOperator.fill_clickhouse] at h <;>
      simp [← h, QueryOperator.operator_type, QueryOperator.nameField]
  | groupBy i m =>
    cases plan <;> simp [QueryOperator.fill_clickhouse] at h <;>
      simp [← h, QueryOperator.operator_type, QueryOperator.nameField]
  | join i ty me =>
    cases plan <;> simp [QueryOperator.fill_clickhouse] at h <;>
      simp [← h, QueryOperator.operator_type, QueryOperator.nameField]
  | custom n i l =>
    by_cases hn : n.isStrEq "Limit" = true
    · cases plan <;> simp [QueryOperator.fill_clickhouse, hn] at h <;>
        simp [← h, QueryOperator.operator_type, QueryOperator.nameField]
    · simp [QueryOperator.fill_clickhouse, hn] at h
      simp [← h, QueryOperator.operator_type, QueryOperator.nameField]
  | result i => simp [QueryOperator.fill_clickhouse] at h; simp [← h]
  | inlineTable i t => simp [QueryOperator.fill_clickhouse] at h; simp [← h]
  | temp i => simp [QueryOperator.fill_clickhouse] at h; simp [← h]
  | pipelineBreakerScan i s => simp [QueryOperator.fill_clickhouse] at h; simp [← h]
  | select i => simp [QueryOperator.fill_clickhouse] at h; simp [← h]
  | map i => simp [QueryOperator.fill_clickhouse] at h; simp [← h]
  | groupJoin i t => simp [QueryOperator.fill_clickhouse] at h; simp [← h]
  | earlyProbe i s => simp [QueryOperator.fill_clickhouse] at h; simp [← h]
  | setOperation i t a => simp [QueryOperator.fill_clickhouse] at h; simp [← h]
  | window i => simp [QueryOperator.fill_clickhouse] at h; simp [← h]
  | iteration i => simp [QueryOperator.fill_clickhouse] at h; simp [← h]
  | iterationScan i => simp [QueryOperator.fill_clickhouse] at h; simp [← h]
  | arrayUnnest i => simp [QueryOperator.fill_clickhouse] at h; simp [← h]
  | regexSplit i => simp [QueryOperator.fill_clickhouse] at h; simp [← h]
  | subquery i => simp [QueryOperator.fill_clickhouse] at h; simp [← h]

/-- A truthy children value never has length zero. -/
theorem pyTruthy_pyLen_ne_zero {v : Json} (h : pyTruthy v = true) : pyLen v ≠ .ok 0 := by
  cases v with
  | str s =>
    cases s with
    | mk cs => cases cs <;> simp_all [pyTruthy, pyLen]
  | arr xs => cases xs <;> simp_all [pyTruthy, pyLen]
  | obj fs => cases fs <;> simp_all [pyTruthy, pyLen]
  | null => simp [pyTruthy] at h
  | bool b => simp [pyLen]
  | num n => simp [pyLen]

/-- The children extraction of the ClickHouse parser yields either the empty
list or a truthy raw value. -/
theorem extract_children_truthy_or_empty (plan : Json) :
    ClickHouseParser.extract_children plan = .arr [] ∨
    pyTruthy (ClickHouseParser.extract_children plan) = true := by
  unfold ClickHouseParser.extract_children
  cases plan with
  | obj fs =>
    cases hf : ClickHouseParser.child_keys.find?
        (fun k => jhas (Json.obj fs) k && pyTruthy (jget (Json.obj fs) k)) with
    | none => left; rfl
    | some k =>
      right
      show pyTruthy (jget (Json.obj fs) k) = true
      have hp := List.find?_some hf
      exact (Bool.and_eq_true _ _ |>.mp hp).2
  | null => left; rfl
  | bool b => left; rfl
  | num n => left; rfl
  | str s => left; rfl
  | arr xs => left; rfl

/-- `is_leaf_operator` holds exactly on raw nodes whose children extraction
is the empty list. -/
theorem is_leaf_iff_empty (plan : Json) :
    ClickHouseParser.is_leaf_operator plan = .ok true ↔
    ClickHouseParser.extract_children plan = .arr [] := by
  constructor
  · intro h
    rcases extract_children_truthy_or_empty plan with he | ht
    · exact he
    · exfalso
      unfold ClickHouseParser.is_leaf_operator at h
      cases hl : pyLen (ClickHouseParser.extract_children plan) with
      | error e => rw [hl] at h; simp at h
      | ok n =>
        rw [hl] at h
        simp at h
        subst h
        exact pyTruthy_pyLen_ne_zero ht hl
  · intro h
    unfold ClickHouseParser.is_leaf_operator
    rw [h]
    simp [pyLen]

/-! ## Claims -/

/-- C1: for every query string and raw payload on which parsing succeeds,
the `QueryPlan` returned by `parse_json_plan` — of the ClickHouse parser as
well as of the SQL Server parser — has a root that is an `InnerNode` whose
operator is `Result` with `operator_id` `-1` and that has exactly one child
(the real top-level node built by the engine-specific parse). -/
theorem c1_sentinel_result_root :
    (∀ (incl : Bool) (query : String) (json_plan : Json) (qp : QueryPlan),
      ClickHouseParser.parse_json_plan incl query json_plan = .ok qp →
      isCanonicalRoot qp.plan) ∧
    (∀ (incl : Bool) (query : String) (payload : SqlPayload) (qp : QueryPlan),
      SQLServerParser.parse_json_plan incl query payload = .ok qp →
      isCanonicalRoot qp.plan) := by
  constructor
  · intro incl query json_plan qp h
    unfold ClickHouseParser.parse_json_plan at h
    cases json_plan <;> simp at h
    case obj fs =>
      split at h
      · simp at h
      · rename_i plan ctr heq
        simp at h
        subst h
        exact ⟨_, _, _, _, rfl⟩
  · intro incl query payload qp h
    cases payload with
    | xmlDoc root =>
      simp only [SQLServerParser.parse_json_plan] at h
      split at h
      · simp at h
      · split at h
        · simp at h
        · simp at h
          subst h
          exact ⟨_, _, _, _, rfl⟩
    | rows rs =>
      simp only [SQLServerParser.parse_json_plan] at h
      split at h
      · simp at h
      · simp at h
        subst h
        exact ⟨_, _, _, _, rfl⟩

/-- Witness for C1: both parsers at concrete payloads. -/
theorem c1_sentinel_result_root_witness :
    (∃ qp, ClickHouseParser.parse_json_plan true "w1" (.obj [("Node Type", .str "ReadFromMergeTree")]) = .ok qp ∧
      isCanonicalRoot qp.plan) ∧
    (∃ qp, SQLServerParser.parse_json_plan true "w1"
        (.xmlDoc (.mk "ShowPlanXML" [] [.mk "RelOp" [("PhysicalOp", "Sort")] []])) = .ok qp ∧
      isCanonicalRoot qp.plan) := by
  constructor
  · have h : ClickHouseParser.parse_json_plan true "w1" (.obj [("Node Type", .str "ReadFromMergeTree")]) =
        .ok ⟨"w1", result_root (.leaf (.tableScan (.num 0) .null .null .null) none none
          (some (.jsonRep (.obj [("Node Type", .str "ReadFromMergeTree")]))))⟩ := rfl
    exact ⟨_, h, c1_sentinel_result_root.1 true "w1" _ _ h⟩
  · have h : SQLServerParser.parse_json_plan true "w1"
        (.xmlDoc (.mk "ShowPlanXML" [] [.mk "RelOp" [("PhysicalOp", "Sort")] []])) =
        .ok ⟨"w1", result_root (.leaf (.sort (.num 0) .null) none none
          (some (.xmlRep (.mk "RelOp" [("PhysicalOp", "Sort")] []))))⟩ := rfl
    exact ⟨_, h, c1_sentinel_result_root.2 true "w1" _ _ h⟩

/-- C10: the ClickHouse parser does not fail on structurally empty
payloads — an empty dict, or a payload whose `Plan`/`plan` value is an empty
list — and returns a `Result` root with exactly one child, a `LeafNode`
carrying a `CustomOperator` named `"Unknown"` with both cardinalities
`None`. -/
theorem c10_empty_payloads :
    ClickHouseParser.parse_json_plan true "q" (.obj []) =
      .ok ⟨"q", .inner (.result (.num (-1))) none none
        [.leaf (.custom (.str "Unknown") (.num 0) .null) none none (some (.jsonRep (.obj [])))]
        (some (.note "// added by benchy"))⟩ ∧
    ClickHouseParser.parse_json_plan true "q" (.obj [("Plan", .arr [])]) =
      .ok ⟨"q", .inner (.result (.num (-1))) none none
        [.leaf (.custom (.str "Unknown") (.num 0) .null) none none
          (some (.jsonRep (.obj [("Plan", .arr [])])))]
        (some (.note "// added by benchy"))⟩ ∧
    ClickHouseParser.parse_json_plan true "q" (.obj [("plan", .arr [])]) =
      .ok ⟨"q", .inner (.result (.num (-1))) none none
        [.leaf (.custom (.str "Unknown") (.num 0) .null) none none
          (some (.jsonRep (.obj [("plan", .arr [])])))]
        (some (.note "// added by benchy"))⟩ :=
  ⟨rfl, rfl, rfl⟩

/-- C2 counterexample: on the Scenario A payload the ClickHouse parser
leaves the GroupBy leaf's `estimated_cardinality` at `None` — the raw node
has no estimated-rows key, and only the exact count falls back to the
estimate, never the converse — so the claimed `estimated_cardinality = 10`
is false. -/
theorem c2_counterexample :
    childEstimated (ClickHouseParser.parse_json_plan true "q" scenario_a_payload) = some none ∧
    some (Option.none : Option Int) ≠ some (some (10 : Int)) :=
  ⟨rfl, by simp⟩

/-- C2 amended: the Scenario A payload parses to the canonical tree
`Result → GroupBy(leaf)` with `exact_cardinality = 10` and
`estimated_cardinality = None` (the `Statistics.rows` key feeds only the
exact count). -/
theorem c2_amended_scenario_a :
    ClickHouseParser.parse_json_plan true "q" scenario_a_payload =
      .ok ⟨"q", .inner (.result (.num (-1))) none (some 10)
        [.leaf (.groupBy (.num 1) .null) none (some 10)
          (some (.jsonRep (.obj [("Node Type", .str "Aggregating"),
                                 ("Statistics", .obj [("rows", .num 10)])])))]
        (some (.note "// added by benchy"))⟩ :=
  rfl

/-- C3 evaluation at the failing input: a ClickHouse expression wrapper
with no children (`{"Node Type": "Expression"}`) is rebuilt under the name
`"Map"`, but `create_empty_operator` has no rule matching `"map"`, so the
node's operator is a `CustomOperator` named `"Map"` — its taxonomy kind is
`CustomOperator`, not `Map` as the claim (and the code's own comment about
a no-op map fallback) requires. -/
theorem c3_expression_no_children_eval :
    ClickHouseParser.build_initial_plan true 2 (.obj [("Node Type", .str "Expression")]) 0 =
      .ok (.leaf (.custom (.str "Map") (.num 0) .null) none none
        (some (.jsonRep (.obj [("Node Type", .str "Expression")]))), 1) ∧
    (QueryOperator.custom (.str "Map") (.num 0) .null).operator_type ≠ OperatorType.Map :=
  ⟨rfl, by decide⟩

/-- C4 counterexample: when the `int()` coercion of a present `Limit` value
fails, `Sort.fill` (ClickHouse branch) stores the raw value, not `None`. -/
theorem c4_counterexample :
    (QueryOperator.sort (.num 0) .null).fill_clickhouse (.obj [("Limit", .str "abc")]) =
      .ok (.sort (.num 0) (.str "abc")) ∧
    Json.isNull (.str "abc") = false :=
  ⟨rfl, rfl⟩

/-- C4 amended: for the ClickHouse `Sort` and `"Limit"` `CustomOperator`
limit fields, a failed `int()` coercion of a present (non-`None`) value
stores the raw value — without raising; cardinality extraction yields
optional integers and succeeds on every dict node whose statistics value is
a dict. -/
theorem c4_amended_coercion :
    (∀ (oid : OpId) (l0 : Json) (fs : List (String × Json)),
      pyIntJ (ch_limit_chain (.obj fs)) = none →
      (ch_limit_chain (.obj fs)).isNull = false →
      (QueryOperator.sort oid l0).fill_clickhouse (.obj fs) =
        .ok (.sort oid (ch_limit_chain (.obj fs)))) ∧
    (∀ (oid : OpId) (l0 : Json) (fs : List (String × Json)),
      pyIntJ (ch_limit_chain (.obj fs)) = none →
      (ch_limit_chain (.obj fs)).isNull = false →
      (QueryOperator.custom (.str "Limit") oid l0).fill_clickhouse (.obj fs) =
        .ok (.custom (.str "Limit") oid (ch_limit_chain (.obj fs)))) ∧
    (∀ (fs gs : List (String × Json)),
      ClickHouseParser.stats_of (.obj fs) = .obj gs →
      ClickHouseParser.extract_cardinalities (.obj fs) =
        .ok (ClickHouseParser.raw_estimated (.obj gs),
             match ClickHouseParser.raw_exact (.obj gs) with
             | none => ClickHouseParser.raw_estimated (.obj gs)
             | some e => some e)) := by
  refine ⟨?_, ?_, ?_⟩
  · intro oid l0 fs h1 h2
    simp [QueryOperator.fill_clickhouse, ch_limit_coerce, h1, h2]
  · intro oid l0 fs h1 h2
    simp [QueryOperator.fill_clickhouse, Json.isStrEq, ch_limit_coerce, h1, h2]
  · intro fs gs hst
    unfold ClickHouseParser.extract_cardinalities
    rw [hst]

/-- Witness for C4's amended claim. -/
theorem c4_amended_coercion_witness :
    (QueryOperator.sort (.num 0) .null).fill_clickhouse (.obj [("Limit", .str "12x")]) =
      .ok (.sort (.num 0) (.str "12x")) ∧
    (QueryOperator.custom (.str "Limit") (.num 0) .null).fill_clickhouse (.obj [("Limit", .str "12x")]) =
      .ok (.custom (.str "Limit") (.num 0) (.str "12x")) ∧
    ClickHouseParser.extract_cardinalities (.obj []) = .ok (none, none) := by
  refine ⟨?_, ?_, ?_⟩
  · exact c4_amended_coercion.1 (.num 0) .null [("Limit", .str "12x")] rfl rfl
  · exact c4_amended_coercion.2.1 (.num 0) .null [("Limit", .str "12x")] rfl rfl
  · exact c4_amended_coercion.2.2 [] [] rfl

/-- C6 counterexample: the decided name `"Table Scan Hash Match Aggregate"`
(the passthrough case of `_decide_operator_name`) contains both
`"hash match"` and `"aggregate"` case-insensitively, yet
`create_empty_operator` resolves it to `TableScan` — the scan prefix rule
fires before the aggregate rule — so the claimed "returns a GroupBy" is
false (though it is still not a Join). -/
theorem c6_counterexample :
    strContains (strToLower (SQLServerParser.decide_operator_name
      "Table Scan Hash Match Aggregate" "Inner Join")) "hash match" = true ∧
    strContains (strToLower (SQLServerParser.decide_operator_name
      "Table Scan Hash Match Aggregate" "Inner Join")) "aggregate" = true ∧
    (SQLServerParser.create_empty_operator (SQLServerParser.decide_operator_name
      "Table Scan Hash Match Aggregate" "Inner Join") (.num 0)).operator_type ≠
      OperatorType.GroupBy := by
  refine ⟨rfl, rfl, ?_⟩
  intro h
  rw [show (SQLServerParser.create_empty_operator (SQLServerParser.decide_operator_name
      "Table Scan Hash Match Aggregate" "Inner Join") (.num 0)).operator_type =
      OperatorType.TableScan from rfl] at h
  exact absurd h (by decide)

/-- C6 amended: a name containing both `"hash match"` and `"aggregate"`
(case-insensitively) never resolves to a `Join`; and whenever none of the
earlier prefix rules (table scan/index scan/index seek/clustered index,
sort, filter, compute) captures the name, it resolves to a `GroupBy` — the
aggregate check has priority over the join check whenever both terms are
present. -/
theorem c6_amended_aggregate_priority :
    ∀ (name : String) (oid : OpId),
      strContains (strToLower name) "hash match" = true →
      strContains (strToLower name) "aggregate" = true →
      (SQLServerParser.create_empty_operator name oid).operator_type ≠ OperatorType.Join ∧
      (SQLServerParser.scan_name_rule (strToLower name) = false →
       strStartsWith (strToLower name) "sort" = false →
       strStartsWith (strToLower name) "filter" = false →
       strStartsWith (strToLower name) "compute" = false →
       (SQLServerParser.create_empty_operator name oid).operator_type = OperatorType.GroupBy) := by
  intro name oid hhm hagg
  constructor
  · unfold SQLServerParser.create_empty_operator
    dsimp only
    split_ifs <;> simp_all [QueryOperator.operator_type]
  · intro hscan hsort hfilter hcompute
    unfold SQLServerParser.create_empty_operator
    dsimp only
    split_ifs <;> simp_all [QueryOperator.operator_type]

/-- Witness for C6's amended claim: `"xhash match aggregate"` matches no
earlier prefix rule and resolves to `GroupBy`, not `Join`. -/
theorem c6_amended_aggregate_priority_witness :
    (SQLServerParser.create_empty_operator "xhash match aggregate" (.num 0)).operator_type ≠
      OperatorType.Join ∧
    (SQLServerParser.create_empty_operator "xhash match aggregate" (.num 0)).operator_type =
      OperatorType.GroupBy := by
  have h := c6_amended_aggregate_priority "xhash match aggregate" (.num 0) rfl rfl
  exact ⟨h.1, h.2 rfl rfl rfl rfl⟩

/-- C7: in every cardinality extraction of both parsers — the ClickHouse
statistics lookup, the XML attribute lookup (also as carried by the node
built for the element), and the flat-rows cell lookup — if the exact count
is unavailable from the raw payload it equals the estimate, and if both are
unavailable both are `None`. -/
theorem c7_cardinality_fallback :
    (∀ (plan : Json) (est ex : Option Int),
      ClickHouseParser.extract_cardinalities plan = .ok (est, ex) →
      (ClickHouseParser.raw_exact (ClickHouseParser.stats_of plan) = none → ex = est) ∧
      (ClickHouseParser.raw_exact (ClickHouseParser.stats_of plan) = none ∧
       ClickHouseParser.raw_estimated (ClickHouseParser.stats_of plan) = none →
       est = none ∧ ex = none)) ∧
    (∀ (e : XmlElem),
      (SQLServerParser.safe_int_attr (attrsGet e.attrib "ActualRows") = none →
        (SQLServerParser.xml_cardinalities e).2 = (SQLServerParser.xml_cardinalities e).1) ∧
      (SQLServerParser.safe_int_attr (attrsGet e.attrib "ActualRows") = none ∧
       SQLServerParser.safe_int_attr (attrsGet e.attrib "EstimateRows") = none →
       SQLServerParser.xml_cardinalities e = (none, none)) ∧
      (∀ (incl : Bool) (fuel ctr : Nat) (node : PlanNode) (ctrf : Nat),
        SQLServerParser.build_relop incl (fuel + 1) e ctr = .ok (node, ctrf) →
        node.estimated_cardinality = (SQLServerParser.xml_cardinalities e).1 ∧
        node.exact_cardinality = (SQLServerParser.xml_cardinalities e).2)) ∧
    (∀ (info : RowDict),
      (SQLServerParser.rv_safe_int (SQLServerParser.rget info "Rows") = none →
        (SQLServerParser.rows_cardinalities info).2 = (SQLServerParser.rows_cardinalities info).1) ∧
      (SQLServerParser.rv_safe_int (SQLServerParser.rget info "Rows") = none ∧
       SQLServerParser.rv_safe_int (SQLServerParser.rget info "EstimateRows") = none →
       SQLServerParser.rows_cardinalities info = (none, none))) := by
  refine ⟨?_, ?_, ?_⟩
  · intro plan est ex h
    unfold ClickHouseParser.extract_cardinalities at h
    cases plan <;> simp at h
    case obj fs =>
      split at h
      · simp at h
        constructor
        · intro hex
          rw [hex] at h
          simp at h
          rw [← h.1, ← h.2]
        · intro hx
          rw [hx.1] at h
          simp at h
          rw [hx.2] at h
          exact ⟨h.1.symm, h.2.symm⟩
      · simp at h
    all_goals
      refine ⟨fun _ => ?_, fun _ => ?_⟩
      · rw [← h.1, ← h.2]
      · exact ⟨h.1.symm, h.2.symm⟩
  · intro e
    refine ⟨?_, ?_, ?_⟩
    · intro hex
      unfold SQLServerParser.xml_cardinalities
      rw [hex]
    · intro ⟨hex, hest⟩
      unfold SQLServerParser.xml_cardinalities
      rw [hex, hest]
    · intro incl fuel ctr node ctrf h
      unfold SQLServerParser.build_relop at h
      split at h
      by_cases hemp : (SQLServerParser.extract_children e).isEmpty = true
      · rw [if_pos hemp] at h
        simp at h
        obtain ⟨h1, h2⟩ := h
        subst h1
        exact ⟨rfl, rfl⟩
      · rw [if_neg hemp] at h
        split at h
        · simp at h
        · simp at h
          obtain ⟨h1, h2⟩ := h
          subst h1
          exact ⟨rfl, rfl⟩
  · intro info
    constructor
    · intro hex
      unfold SQLServerParser.rows_cardinalities
      rw [hex]
    · intro ⟨hex, hest⟩
      unfold SQLServerParser.rows_cardinalities
      rw [hex, hest]

/-- Witness for C7: concrete instances of all three extraction paths, with
each hypothesis discharged by evaluation. -/
theorem c7_cardinality_fallback_witness :
    ((some 7 : Option Int) = some 7) ∧
    ((SQLServerParser.xml_cardinalities (.mk "RelOp" [("EstimateRows", "3")] [])).2 =
      (SQLServerParser.xml_cardinalities (.mk "RelOp" [("EstimateRows", "3")] [])).1) ∧
    ((SQLServerParser.rows_cardinalities []).2 = (SQLServerParser.rows_cardinalities []).1) ∧
    ((PlanNode.leaf (.custom (.str "Unknown") (.num 0) .null) (some 3) (some 3)
        (some (.xmlRep (.mk "RelOp" [("EstimateRows", "3")] [])))).estimated_cardinality =
      (SQLServerParser.xml_cardinalities (.mk "RelOp" [("EstimateRows", "3")] [])).1) := by
  refine ⟨?_, ?_, ?_, ?_⟩
  · exact (c7_cardinality_fallback.1 (.obj [("Statistics", .obj [("row_count", .num 7)])])
      (some 7) (some 7) rfl).1 rfl
  · exact (c7_cardinality_fallback.2.1 (.mk "RelOp" [("EstimateRows", "3")] [])).1 rfl
  · exact (c7_cardinality_fallback.2.2 []).1 rfl
  · exact ((c7_cardinality_fallback.2.1 (.mk "RelOp" [("EstimateRows", "3")] [])).2.2
      true 0 0 _ 1 rfl).1

/-- A fold whose step function only ever produces one error message
propagates only that message. -/
theorem foldl_error_const {α β : Type} (f : Except String β → α → Except String β) (msg : String)
    (hf : ∀ (acc : Except String β) (c : α) (e0 : String),
      (∀ e1, acc = .error e1 → e1 = msg) → f acc c = .error e0 → e0 = msg) :
    ∀ (cs : List α) (acc : Except String β), (∀ e1, acc = .error e1 → e1 = msg) →
      ∀ err, cs.foldl f acc = .error err → err = msg := by
  intro cs
  induction cs with
  | nil =>
    intro acc hacc err h
    exact hacc err (by simpa using h)
  | cons c rest ih =>
    intro acc hacc err h
    exact ih (f acc c) (fun e1 he => hf acc c e1 hacc he) err h

/-- `build_relop` can only fail by exhausting its recursion fuel. -/
theorem build_relop_error_msg :
    ∀ (fuel : Nat) (incl : Bool) (e : XmlElem) (ctr : Nat) (err : String),
      SQLServerParser.build_relop incl fuel e ctr = .error err →
      err = "RecursionError: maximum recursion depth exceeded" := by
  intro fuel
  induction fuel with
  | zero =>
    intro incl e ctr err h
    unfold SQLServerParser.build_relop at h
    simp at h
    exact h.symm
  | succ fuel ih =>
    intro incl e ctr err h
    unfold SQLServerParser.build_relop at h
    split at h
    by_cases hemp : (SQLServerParser.extract_children e).isEmpty = true
    · rw [if_pos hemp] at h
      simp at h
    · rw [if_neg hemp] at h
      split at h
      · rename_i err0 heq
        simp at h
        subst h
        refine foldl_error_const _ _ ?_ _ _ (fun e1 he => by simp at he) _ heq
        intro acc c e0 hacc hstep
        cases acc with
        | error e1 =>
          exact hacc e0 (by simpa using hstep)
        | ok p =>
          obtain ⟨ns, c0⟩ := p
          simp at hstep
          cases hb : SQLServerParser.build_relop incl fuel c c0 with
          | error e2 =>
            rw [hb] at hstep
            simp at hstep
            exact hstep ▸ ih incl c c0 e2 hb
          | ok q =>
            rw [hb] at hstep
            simp at hstep
      · simp at h

/-- C9 counterexample: a single well-formed `PLAN_ROW` row whose `Parent`
cell holds the non-numeric string `"x"` makes the flat-rows parse fail
(`int(parent)` raises) even though a node id exists, so per the claim a
root would be identifiable via the smallest-id fallback — parsing does not
fail *exactly* when no qualifying root can be identified. -/
theorem c9_counterexample :
    (SQLServerParser.parse_json_plan true "q" (.rows [bad_parent_row])).isOkB = false ∧
    SQLServerParser.node_map_of (SQLServerParser.row_entries [bad_parent_row]) =
      .ok [(1, SQLServerParser.columns.zip bad_parent_row)] :=
  ⟨rfl, rfl⟩

/-- C9 amended: parsing fails fatally whenever no qualifying root can be
identified — in the XML shape the missing-`RelOp` error occurs exactly when
no `RelOp` descendant exists, and in the flat-rows shape the missing-root
error occurs whenever no row contributes a node id — but the flat-rows
shape can additionally fail on malformed rows (for example a non-numeric
`Parent` cell), so failure is not limited to the missing-root case. -/
theorem c9_amended_root_failure :
    (∀ (incl : Bool) (query : String) (root : XmlElem),
      findRelOpIn root.children = none →
      SQLServerParser.parse_json_plan incl query (.xmlDoc root) =
        .error "No RelOp node found in SQL Server plan") ∧
    (∀ (incl : Bool) (query : String) (root : XmlElem),
      SQLServerParser.parse_json_plan incl query (.xmlDoc root) =
        .error "No RelOp node found in SQL Server plan" →
      findRelOpIn root.children = none) ∧
    (∀ (incl : Bool) (query : String) (rs : List (List RVal)),
      SQLServerParser.node_map_of (SQLServerParser.row_entries rs) = .ok [] →
      SQLServerParser.parse_json_plan incl query (.rows rs) =
        .error "No root node identified in SQL Server plan rows") := by
  refine ⟨?_, ?_, ?_⟩
  · intro incl query root hfind
    unfold SQLServerParser.parse_json_plan
    dsimp only
    rw [hfind]
  · intro incl query root h
    cases hfind : findRelOpIn root.children with
    | none => rfl
    | some relop =>
      exfalso
      unfold SQLServerParser.parse_json_plan at h
      dsimp only at h
      rw [hfind] at h
      dsimp only at h
      cases hb : SQLServerParser.build_relop incl (xmlSize relop + 1) relop 0 with
      | error err =>
        rw [hb] at h
        simp at h
        have hmsg := build_relop_error_msg _ incl relop 0 err hb
        rw [hmsg] at h
        exact absurd h (by decide)
      | ok p =>
        rw [hb] at h
        obtain ⟨plan, c⟩ := p
        simp at h
  · intro incl query rs hm
    unfold SQLServerParser.parse_json_plan SQLServerParser.build_from_rows
    dsimp only
    rw [hm]
    exact rfl

/-- Witness for C9's amended claim. -/
theorem c9_amended_root_failure_witness :
    SQLServerParser.parse_json_plan true "w9" (.xmlDoc (.mk "ShowPlanXML" [] [.mk "Statements" [] []])) =
      .error "No RelOp node found in SQL Server plan" ∧
    findRelOpIn (XmlElem.mk "ShowPlanXML" [] [.mk "Statements" [] []]).children = none ∧
    SQLServerParser.parse_json_plan true "w9" (.rows []) =
      .error "No root node identified in SQL Server plan rows" := by
  refine ⟨?_, ?_, ?_⟩
  · exact c9_amended_root_failure.1 true "w9" _ rfl
  · exact c9_amended_root_failure.2.1 true "w9" _ rfl
  · exact c9_amended_root_failure.2.2 true "w9" [] rfl

/-- A non-empty prefix determines the head of the string. -/
theorem isPrefixOf_head {a : Char} {as l : List Char} (h : (a :: as).isPrefixOf l = true) :
    ∃ t, l = a :: t := by
  cases l with
  | nil => simp [List.isPrefixOf] at h
  | cons x xs =>
    simp [List.isPrefixOf] at h
    exact ⟨xs, by rw [h.1]⟩

/-- Two prefixes of the same string agree on their first character, hence a
string starting with one word cannot start with a word whose first
character differs. -/
theorem startsWith_clash {s p q : String} {a b : Char} {as bs : List Char}
    (hp : p.data = a :: as) (hq : q.data = b :: bs) (hab : a ≠ b)
    (h1 : strStartsWith s p = true) : strStartsWith s q = false := by
  by_contra hq2
  simp only [Bool.not_eq_false] at hq2
  unfold strStartsWith at h1 hq2
  rw [hp] at h1
  rw [hq] at hq2
  obtain ⟨t1, ht1⟩ := isPrefixOf_head h1
  obtain ⟨t2, ht2⟩ := isPrefixOf_head hq2
  rw [ht1] at ht2
  injection ht2 with hhead _
  exact hab hhead

/-- A Python string-equality test pins down the JSON value. -/
theorem isStrEq_eq {j : Json} {s : String} (h : j.isStrEq s = true) : j = .str s := by
  cases j <;> simp_all [Json.isStrEq]

/-- If `create_empty_operator` (ClickHouse) returns a `CustomOperator`
called `"Limit"`, the normalized raw name starts with `"limit"`. -/
theorem create_ch_limit_prefix {name : Json} {opid : OpId}
    (h : (ClickHouseParser.create_empty_operator name opid).operator_type = OperatorType.CustomOperator)
    (hn : (ClickHouseParser.create_empty_operator name opid).nameField.isStrEq "Limit" = true) :
    strStartsWith (strToLower (pyStr name)) "limit" = true := by
  unfold ClickHouseParser.create_empty_operator at h hn
  dsimp only at h hn
  split_ifs at h hn with h1 h2 h3 h4 h5 h6 h7 h8 h9
  · simp [QueryOperator.operator_type] at h
  · simp [QueryOperator.operator_type] at h
  · simp [QueryOperator.operator_type] at h
  · simp [QueryOperator.operator_type] at h
  · simp [QueryOperator.operator_type] at h
  · simp [QueryOperator.operator_type] at h
  · simp [QueryOperator.operator_type] at h
  · exact h8
  · simp [QueryOperator.operator_type] at h
  · simp [QueryOperator.nameField] at hn
    have hname := isStrEq_eq hn
    subst hname
    exact absurd h8 (by decide)

/-- A fold whose step function absorbs errors keeps an error accumulator. -/
theorem foldl_error_absorb {α β : Type} (f : Except String β → α → Except String β)
    (hferr : ∀ e c, f (.error e) c = .error e) :
    ∀ (cs : List α) (e : String), cs.foldl f (.error e) = .error e := by
  intro cs
  induction cs with
  | nil => intro e; rfl
  | cons c rest ih =>
    intro e
    rw [List.foldl_cons, hferr]
    exact ih e

/-- A fold that appends one element per step grows the accumulator by the
length of the list. -/
theorem foldl_ok_length {α β : Type} (f : Except String (List β) → α → Except String (List β))
    (hf : ∀ ns c ns', f (.ok ns) c = .ok ns' → ns'.length = ns.length + 1)
    (hferr : ∀ e c, f (.error e) c = .error e) :
    ∀ (cs : List α) (ns0 ns' : List β), cs.foldl f (.ok ns0) = .ok ns' →
      ns'.length = ns0.length + cs.length := by
  intro cs
  induction cs with
  | nil =>
    intro ns0 ns' h
    simp at h
    rw [← h]
    simp
  | cons c rest ih =>
    intro ns0 ns' h
    rw [List.foldl_cons] at h
    cases hstep : f (.ok ns0) c with
    | error e =>
      rw [hstep, foldl_error_absorb f hferr] at h
      simp at h
    | ok ns1 =>
      rw [hstep] at h
      have h1 := hf ns0 c ns1 hstep
      have h2 := ih ns1 ns' h
      simp only [List.length_cons]
      omega

/-- C8 counterexample: on the Limit-over-Sort payload the Limit/Sort merge
returns the Sort leaf in place of the raw Limit node, although the Limit
node's raw children extraction yields one entry — so "LeafNode iff zero
extracted children" fails across the merge path. -/
theorem c8_counterexample :
    ClickHouseParser.build_initial_plan true 3 limit_sort_payload 0 =
      .ok (.leaf (.sort (.num 1) (.num 5)) none none
        (some (.jsonRep (.obj [("Node Type", .str "Sorting")]))), 2) ∧
    pyLen (ClickHouseParser.extract_children limit_sort_payload) = .ok 1 :=
  ⟨rfl, rfl⟩


/-- A fold that appends the result of a counter-threading builder one
element at a time produces exactly one output node per input element, in
order. -/
theorem foldl_forall2 {α β γ : Type} (f : Except String (List β × γ) → α → Except String (List β × γ))
    (g : γ → α → Except String (β × γ))
    (hferr : ∀ e c, f (.error e) c = .error e)
    (hstep : ∀ ns cc c, f (.ok (ns, cc)) c =
      match g cc c with
      | .error e => .error e
      | .ok (n, c1) => .ok (ns ++ [n], c1)) :
    ∀ (cs : List α) (ns0 : List β) (c0 : γ) (ns : List β) (cf : γ),
      cs.foldl f (.ok (ns0, c0)) = .ok (ns, cf) →
      ∃ tail, ns = ns0 ++ tail ∧
        List.Forall₂ (fun c n => ∃ cin cout, g cin c = .ok (n, cout)) cs tail := by
  intro cs
  induction cs with
  | nil =>
    intro ns0 c0 ns cf h
    simp at h
    exact ⟨[], by simp [← h.1], List.Forall₂.nil⟩
  | cons c rest ih =>
    intro ns0 c0 ns cf h
    rw [List.foldl_cons, hstep] at h
    cases hg : g c0 c with
    | error e =>
      rw [hg] at h
      dsimp only at h
      rw [foldl_error_absorb f hferr] at h
      simp at h
    | ok nc =>
      obtain ⟨n, c1⟩ := nc
      rw [hg] at h
      dsimp only at h
      obtain ⟨tail, htail, hfa⟩ := ih (ns0 ++ [n]) c1 ns cf h
      exact ⟨n :: tail, by simp [htail], List.Forall₂.cons ⟨c0, c1, hg⟩ hfa⟩

/-- The counter-free variant of the builder fold: one output node per input
element, in order, each the builder's output on that element. -/
theorem foldl_forall2_simple {α β : Type} (f : Except String (List β) → α → Except String (List β))
    (g : α → Except String β)
    (hferr : ∀ e c, f (.error e) c = .error e)
    (hstep : ∀ ns c, f (.ok ns) c =
      match g c with
      | .error e => .error e
      | .ok n => .ok (ns ++ [n])) :
    ∀ (cs : List α) (ns0 ns : List β),
      cs.foldl f (.ok ns0) = .ok ns →
      ∃ tail, ns = ns0 ++ tail ∧ List.Forall₂ (fun c n => g c = .ok n) cs tail := by
  intro cs
  induction cs with
  | nil =>
    intro ns0 ns h
    simp at h
    exact ⟨[], by simp [← h], List.Forall₂.nil⟩
  | cons c rest ih =>
    intro ns0 ns h
    rw [List.foldl_cons, hstep] at h
    cases hg : g c with
    | error e =>
      rw [hg] at h
      dsimp only at h
      rw [foldl_error_absorb f hferr] at h
      simp at h
    | ok n =>
      rw [hg] at h
      dsimp only at h
      obtain ⟨tail, htail, hfa⟩ := ih (ns0 ++ [n]) ns h
      exact ⟨n :: tail, by simp [htail], List.Forall₂.cons hg hfa⟩

/-- C8 amended: for every raw node that is not short-circuited — in the
ClickHouse parser, a dict node that is not an elided expression wrapper
(expression-prefixed name with extractable children) and does not resolve
to the Limit custom operator; in the SQL Server XML shape every element;
in the flat-rows shape a node that is not a parallelism wrapper — the node
built for it is a `LeafNode` iff the raw children extraction yields zero
entries, and otherwise it is an `InnerNode` with one built child per
extracted raw child, in order. -/
theorem c8_amended_leaf_iff :
    (∀ (incl : Bool) (fuel : Nat) (fs : List (String × Json)) (ctr : Nat) (node : PlanNode) (ctrf : Nat),
      ¬(strStartsWith (strToLower (pyStr (ClickHouseParser.extract_operator_name (.obj fs)))) "expression" = true ∧
        pyTruthy (ClickHouseParser.extract_children (.obj fs)) = true) →
      ¬((ClickHouseParser.create_empty_operator
            (if strStartsWith (strToLower (pyStr (ClickHouseParser.extract_operator_name (.obj fs)))) "expression"
             then Json.str "Map" else ClickHouseParser.extract_operator_name (.obj fs))
            (ClickHouseParser.extract_operator_id (.obj fs) ctr).1).operator_type = OperatorType.CustomOperator ∧
        (ClickHouseParser.create_empty_operator
            (if strStartsWith (strToLower (pyStr (ClickHouseParser.extract_operator_name (.obj fs)))) "expression"
             then Json.str "Map" else ClickHouseParser.extract_operator_name (.obj fs))
            (ClickHouseParser.extract_operator_id (.obj fs) ctr).1).nameField.isStrEq "Limit" = true) →
      ClickHouseParser.build_initial_plan incl (fuel + 1) (.obj fs) ctr = .ok (node, ctrf) →
      ((node.isLeafNode = true ↔ ClickHouseParser.extract_children (.obj fs) = .arr []) ∧
       ∀ kids, ClickHouseParser.extract_children (.obj fs) = .arr kids → kids ≠ [] →
         ∃ children, (∃ op est ex sys, node = .inner op est ex children sys) ∧
           List.Forall₂ (fun kid child => ∃ cin cout,
             ClickHouseParser.build_initial_plan incl fuel kid cin = .ok (child, cout)) kids children)) ∧
    (∀ (incl : Bool) (fuel : Nat) (e : XmlElem) (ctr : Nat) (node : PlanNode) (ctrf : Nat),
      SQLServerParser.build_relop incl (fuel + 1) e ctr = .ok (node, ctrf) →
      ((node.isLeafNode = true ↔ SQLServerParser.extract_children e = []) ∧
       (SQLServerParser.extract_children e ≠ [] →
         ∃ children, (∃ op est ex sys, node = .inner op est ex children sys) ∧
           List.Forall₂ (fun kid child => ∃ cin cout,
             SQLServerParser.build_relop incl fuel kid cin = .ok (child, cout))
             (SQLServerParser.extract_children e) children))) ∧
    (∀ (incl : Bool) (node_map : List (Int × RowDict)) (children_map : List (Int × List Int))
       (fuel : Nat) (nid : Int) (entry : Int × RowDict) (node : PlanNode),
      node_map.find? (fun p => p.1 = nid) = some entry →
      strStartsWith (strToLower (SQLServerParser.pyStrR (SQLServerParser.rget entry.2 "PhysicalOp"))) "parallelism" = false →
      SQLServerParser.build_node incl node_map children_map (fuel + 1) nid = .ok node →
      ((node.isLeafNode = true ↔
        (match children_map.find? (fun p => p.1 = nid) with
         | some p => p.2
         | none => []) = []) ∧
       ((match children_map.find? (fun p => p.1 = nid) with
         | some p => p.2
         | none => []) ≠ [] →
         ∃ children, (∃ op est ex sys, node = .inner op est ex children sys) ∧
           List.Forall₂ (fun cid child =>
             SQLServerParser.build_node incl node_map children_map fuel cid = .ok child)
             (match children_map.find? (fun p => p.1 = nid) with
              | some p => p.2
              | none => []) children))) := by
  refine ⟨?_, ?_, ?_⟩
  · intro incl fuel fs ctr node ctrf hne hcust hb
    unfold ClickHouseParser.build_initial_plan at hb
    dsimp only at hb
    have hAB : ¬((strStartsWith (strToLower (pyStr (ClickHouseParser.extract_operator_name (Json.obj fs)))) "expression" &&
        pyTruthy (ClickHouseParser.extract_children (Json.obj fs))) = true) := by
      intro hab
      exact hne (by simpa using hab)
    rw [if_neg hAB] at hb
    split at hb
    · simp at hb
    · rename_i operator hfill
      split at hb
      · simp at hb
      · rename_i est ex hcards
        split at hb
        · simp at hb
        · rename_i sysrep hsys
          obtain ⟨hty, hname⟩ := fill_clickhouse_preserves _ _ _ hfill
          have hnot : ¬(operator.operator_type = OperatorType.CustomOperator ∧
              operator.nameField.isStrEq "Limit" = true ∧
              pyTruthy (ClickHouseParser.extract_children (.obj fs)) = true) := by
            rintro ⟨hc1, hc2, -⟩
            rw [hty] at hc1
            rw [hname] at hc2
            exact hcust ⟨hc1, hc2⟩
          rw [if_neg hnot] at hb
          dsimp only at hb
          split at hb
          · simp at hb
          · rename_i hleaf
            simp at hb
            rw [← hb.1]
            constructor
            · constructor
              · intro _
                exact (is_leaf_iff_empty _).mp hleaf
              · intro _
                rfl
            · intro kids hch hkne
              exfalso
              have h0 := (is_leaf_iff_empty _).mp hleaf
              rw [hch] at h0
              simp at h0
              exact hkne h0
          · rename_i hleaf
            split at hb
            · simp at hb
            · rename_i kds hkds
              split at hb
              · simp at hb
              · rename_i children ctr3 hfold
                simp at hb
                rw [← hb.1]
                constructor
                · constructor
                  · intro habs
                    simp [PlanNode.isLeafNode] at habs
                  · intro hempty
                    exfalso
                    have hT := (is_leaf_iff_empty (Json.obj fs)).mpr hempty
                    rw [hleaf] at hT
                    simp at hT
                · intro kids hch hkne
                  rw [hch] at hkds
                  have hkk : kids = kds := by
                    rw [show pyIterL (Json.arr kids) = Except.ok kids from rfl] at hkds
                    simpa using hkds
                  subst hkk
                  obtain ⟨tail, htail, hfa⟩ :=
                    foldl_forall2 _ (fun cc c => ClickHouseParser.build_initial_plan incl fuel c cc)
                      (fun e2 c => rfl)
                      (by intro ns cc c
                          dsimp only
                          cases hbn : ClickHouseParser.build_initial_plan incl fuel c cc with
                          | error e2 => rfl
                          | ok p => obtain ⟨n, c1⟩ := p; rfl)
                      kids [] _ children ctr3 hfold
                  have hct : tail = children := by simpa using htail.symm
                  subst hct
                  exact ⟨_, ⟨_, _, _, _, rfl⟩, hfa⟩
  · intro incl fuel e ctr node ctrf hb
    unfold SQLServerParser.build_relop at hb
    split at hb
    dsimp only at hb
    by_cases hemp : (SQLServerParser.extract_children e).isEmpty = true
    · rw [if_pos hemp] at hb
      simp at hb
      rw [← hb.1]
      constructor
      · constructor
        · intro _
          simpa using hemp
        · intro _
          rfl
      · intro hkne
        exact absurd (by simpa using hemp) hkne
    · rw [if_neg hemp] at hb
      split at hb
      · simp at hb
      · rename_i children ctr2 hfold
        simp at hb
        rw [← hb.1]
        constructor
        · constructor
          · intro habs
            simp [PlanNode.isLeafNode] at habs
          · intro hempty
            exact absurd (by simp [hempty] : (SQLServerParser.extract_children e).isEmpty = true) hemp
        · intro hkne
          obtain ⟨tail, htail, hfa⟩ :=
            foldl_forall2 _ (fun cc el => SQLServerParser.build_relop incl fuel el cc)
              (fun e2 c => rfl)
              (by intro ns cc c
                  dsimp only
                  cases hbn : SQLServerParser.build_relop incl fuel c cc with
                  | error e2 => rfl
                  | ok p => obtain ⟨n, c1⟩ := p; rfl)
              (SQLServerParser.extract_children e) [] _ children ctr2 hfold
          have hct : tail = children := by simpa using htail.symm
          subst hct
          exact ⟨_, ⟨_, _, _, _, rfl⟩, hfa⟩
  · intro incl node_map children_map fuel nid entry node hfind hpar hb
    unfold SQLServerParser.build_node at hb
    rw [hfind] at hb
    dsimp only at hb
    split at hb
    · rename_i phys logi hphys hlogi
      split at hb
      · simp at hb
      · rename_i children hfold
        have hnot : ¬(strStartsWith (strToLower (SQLServerParser.pyStrR (SQLServerParser.rget entry.2 "PhysicalOp"))) "parallelism" = true ∧
            children.length = 1) := by
          rintro ⟨hc, -⟩
          rw [hpar] at hc
          exact Bool.noConfusion hc
        rw [if_neg hnot] at hb
        obtain ⟨tail, htail, hfa⟩ :=
          foldl_forall2_simple _ (fun cid => SQLServerParser.build_node incl node_map children_map fuel cid)
            (fun e2 c => rfl)
            (by intro ns c
                dsimp only
                cases hbn : SQLServerParser.build_node incl node_map children_map fuel c with
                | error e2 => rfl
                | ok n => rfl)
            _ [] children hfold
        have hct : tail = children := by simpa using htail.symm
        rw [hct] at hfa
        have hlen := List.Forall₂.length_eq hfa
        by_cases hemp : children.isEmpty = true
        · rw [if_pos hemp] at hb
          simp at hb
          rw [← hb]
          have hc : children = [] := by simpa using hemp
          constructor
          · constructor
            · intro _
              rw [hc] at hlen
              exact List.eq_nil_of_length_eq_zero hlen
            · intro _
              rfl
          · intro hkne
            exfalso
            rw [hc] at hlen
            exact hkne (List.eq_nil_of_length_eq_zero hlen)
        · rw [if_neg hemp] at hb
          simp at hb
          rw [← hb]
          constructor
          · constructor
            · intro habs
              simp [PlanNode.isLeafNode] at habs
            · intro hempty
              exfalso
              apply hemp
              rw [hempty] at hlen
              simp at hlen
              have hcn : children = [] := List.eq_nil_of_length_eq_zero hlen.symm
              simp [hcn]
          · intro hkne
            exact ⟨_, ⟨_, _, _, _, rfl⟩, hfa⟩
    · simp at hb

/-- Concrete instantiation of the amended leaf criterion: a childless
ClickHouse Aggregating node, a childless XML RelOp element, and a single
Sort statistics row, each building a LeafNode with zero extracted
children. -/
theorem c8_amended_leaf_iff_witness :
    ((PlanNode.leaf (.groupBy (.num 0) .null) none none none).isLeafNode = true ↔
      ClickHouseParser.extract_children (.obj [("Node Type", Json.str "Aggregating")]) = .arr []) ∧
    ((PlanNode.leaf (.custom (.str "Unknown") (.num 0) .null) none none none).isLeafNode = true ↔
      SQLServerParser.extract_children (XmlElem.mk "RelOp" [] []) = []) ∧
    ((PlanNode.leaf (.sort (.num 1) .null) none none
        (some (.rowRep [("PhysicalOp", RVal.vstr "Sort"), ("LogicalOp", RVal.vstr "Sort")]))).isLeafNode = true ↔
      (match ([] : List (Int × List Int)).find? (fun p => p.1 = (1 : Int)) with
       | some p => p.2
       | none => []) = []) :=
  ⟨(c8_amended_leaf_iff.1 false 0 [("Node Type", Json.str "Aggregating")] 0 _ 1
      (by decide) (by decide) rfl).1,
   (c8_amended_leaf_iff.2.1 false 0 (XmlElem.mk "RelOp" [] []) 0 _ 1 rfl).1,
   (c8_amended_leaf_iff.2.2 false
      [((1 : Int), [("PhysicalOp", RVal.vstr "Sort"), ("LogicalOp", RVal.vstr "Sort")])] [] 0 1
      ((1 : Int), [("PhysicalOp", RVal.vstr "Sort"), ("LogicalOp", RVal.vstr "Sort")]) _ rfl rfl rfl).1⟩

/-- C5 counterexample: the nested Limit–Sort–Limit payload merges the outer
Limit into the Sort (copying limit 7), yet the canonical output tree still
contains a node named "Limit" — the childless inner Limit leaf — so the "no
Limit node appears anywhere in the canonical output tree" part fails. -/
theorem c5_counterexample :
    ClickHouseParser.build_initial_plan false 4 c5_nested_payload 0 =
      .ok (.inner (.sort (.num 1) (.num 7)) none none
        [.leaf (.custom (.str "Limit") (.num 2) .null) none none none] none, 3) ∧
    PlanNode.mentionsLimit (.inner (.sort (.num 1) (.num 7)) none none
        [.leaf (.custom (.str "Limit") (.num 2) .null) none none none] none) = true :=
  ⟨rfl, rfl⟩

/-- C5 amended: for a raw dict node resolving to `CustomOperator("Limit")`
(and not an expression wrapper) with exactly one extracted child whose built
node carries a `Sort` operator, the build returns that Sort node — with the
Limit's own limit value written into its `limit` field whenever that value
is non-null — and the returned operator kind is `Sort`; a node named
"Limit" may however still occur deeper in the returned subtree. -/
theorem c5_amended_limit_sort_merge
    (incl : Bool) (fuel : Nat) (fs : List (String × Json)) (ctr : Nat)
    (c : Json) (cnode : PlanNode) (ctr2 : Nat) (sid : OpId) (slim : Json)
    (est ex : Option Int)
    (hexp : strStartsWith (strToLower (pyStr (ClickHouseParser.extract_operator_name (.obj fs)))) "expression" = false)
    (h1 : ClickHouseParser.create_empty_operator (ClickHouseParser.extract_operator_name (.obj fs))
        (ClickHouseParser.extract_operator_id (.obj fs) ctr).1 =
      .custom (.str "Limit") (ClickHouseParser.extract_operator_id (.obj fs) ctr).1 .null)
    (hch : ClickHouseParser.extract_children (.obj fs) = .arr [c])
    (hcards : ClickHouseParser.extract_cardinalities (.obj fs) = .ok (est, ex))
    (hbuild : ClickHouseParser.build_initial_plan incl fuel c
        (ClickHouseParser.extract_operator_id (.obj fs) ctr).2 = .ok (cnode, ctr2))
    (hsort : cnode.operator = .sort sid slim) :
    ClickHouseParser.build_initial_plan incl (fuel + 1) (.obj fs) ctr =
      .ok ((if (ch_limit_coerce (ch_limit_chain (.obj fs))).isNull then cnode
            else cnode.withOperator (.sort sid (ch_limit_coerce (ch_limit_chain (.obj fs))))), ctr2) ∧
    (if (ch_limit_coerce (ch_limit_chain (.obj fs))).isNull then cnode
     else cnode.withOperator (.sort sid (ch_limit_coerce (ch_limit_chain (.obj fs))))).operator.operator_type
      = OperatorType.Sort := by
  have hfill : (QueryOperator.custom (.str "Limit")
        (ClickHouseParser.extract_operator_id (.obj fs) ctr).1 .null).fill_clickhouse (.obj fs) =
      .ok (.custom (.str "Limit") (ClickHouseParser.extract_operator_id (.obj fs) ctr).1
        (ch_limit_coerce (ch_limit_chain (.obj fs)))) := rfl
  constructor
  · cases incl <;>
    · unfold ClickHouseParser.build_initial_plan
      dsimp only
      simp only [hexp, Bool.false_and, Bool.false_eq_true, if_false]
      rw [h1, hfill]
      dsimp only
      rw [hcards]
      dsimp only [ClickHouseParser.copy_strip, Except.map]
      rw [hch]
      have hcond : (QueryOperator.custom (Json.str "Limit")
            (ClickHouseParser.extract_operator_id (Json.obj fs) ctr).1
            (ch_limit_coerce (ch_limit_chain (Json.obj fs)))).operator_type = OperatorType.CustomOperator ∧
          (QueryOperator.custom (Json.str "Limit")
            (ClickHouseParser.extract_operator_id (Json.obj fs) ctr).1
            (ch_limit_coerce (ch_limit_chain (Json.obj fs)))).nameField.isStrEq "Limit" = true ∧
          pyTruthy (Json.arr [c]) = true := ⟨rfl, rfl, rfl⟩
      rw [if_pos hcond]
      dsimp only [pyIndex0]
      rw [hbuild]
      dsimp only
      rw [hsort]
      rw [if_pos (show (QueryOperator.sort sid slim).operator_type = OperatorType.Sort from rfl)]
      dsimp only [QueryOperator.limitField]
      cases hn : (ch_limit_coerce (ch_limit_chain (Json.obj fs))).isNull <;> simp [hn]
  · by_cases hn : (ch_limit_coerce (ch_limit_chain (Json.obj fs))).isNull = true
    · rw [if_pos hn, hsort]
      rfl
    · rw [if_neg hn]
      cases cnode <;> rfl

/-- Concrete instantiation of the Limit/Sort merge: the Limit-over-Sorting
payload (limit 5) builds to the Sort leaf with limit 5 and counter 2. -/
theorem c5_amended_limit_sort_merge_witness :
    ClickHouseParser.build_initial_plan false 2 limit_sort_payload 0 =
      .ok ((if (ch_limit_coerce (ch_limit_chain limit_sort_payload)).isNull then
              PlanNode.leaf (.sort (.num 1) .null) none none none
            else (PlanNode.leaf (.sort (.num 1) .null) none none none).withOperator
              (.sort (.num 1) (ch_limit_coerce (ch_limit_chain limit_sort_payload)))), 2) ∧
    (if (ch_limit_coerce (ch_limit_chain limit_sort_payload)).isNull then
       PlanNode.leaf (.sort (.num 1) .null) none none none
     else (PlanNode.leaf (.sort (.num 1) .null) none none none).withOperator
       (.sort (.num 1) (ch_limit_coerce (ch_limit_chain limit_sort_payload)))).operator.operator_type
      = OperatorType.Sort :=
  c5_amended_limit_sort_merge false 1
    [("Node Type", .str "Limit"), ("Limit", .num 5),
     ("Plans", .arr [.obj [("Node Type", .str "Sorting")]])] 0
    (.obj [("Node Type", .str "Sorting")])
    (PlanNode.leaf (.sort (.num 1) .null) none none none) 2 (.num 1) .null none none
    rfl rfl rfl rfl rfl rfl
